import Mathlib

/-!
Verification of the archive-extraction and asset-selection engine of the
dotbins repository (src/dotbins/extract.py, with the download-layer
classifier from src/dotbins/download.py).

The Python code is shallowly embedded: byte strings become `List Nat`,
POSIX modes become `Nat` with explicit octal masks, the external codec and
container libraries (gzip/bz2/lzma, tarfile, zipfile) are abstracted as a
`Libs` record of parsing oracles, and the lazy extraction closures are
defunctionalised into the `ExtractOp` value (the archive member list a
closure re-parses at materialisation time is stored directly, since the
Python code re-opens the very same bytes). The filesystem is modelled as a
flat map from path strings to entries; ancestor-directory creation
(`parents=True`) and OS-level symlink traversal are outside the model and
are noted where elided.
-/

set_option autoImplicit false

abbrev Bytes := List Nat

/-- Information about a file in an archive (`ArchiveFileInfo` in extract.py). -/
structure ArchiveFileInfo where
  name : String
  is_dir : Bool
  mode : Nat
  linkname : String := ""
  is_symlink : Bool := false
  is_hardlink : Bool := false
  deriving Repr, DecidableEq

/-- Kind of a tar member, as classified by `member.isdir/issym/islnk`. -/
inductive TarKind where
  | file
  | dir
  | symlink
  | hardlink
  deriving Repr, DecidableEq

/-- One member of a parsed tar archive, with its content for regular files. -/
structure TarMember where
  name : String
  mode : Nat
  kind : TarKind
  linkname : String
  data : Bytes
  deriving Repr, DecidableEq

/-- One entry of a parsed zip central directory. -/
structure ZipInfo where
  filename : String
  external_attr : Nat
  data : Bytes
  deriving Repr, DecidableEq

/-- Decompression algorithms passed to `_decompress_data`. -/
inductive Decomp where
  | gzip
  | bzip2
  | xz
  deriving Repr, DecidableEq

/-- The string tag used in decompression error messages. -/
def decompName : Decomp → String
  | .gzip => "gzip"
  | .bzip2 => "bzip2"
  | .xz => "xz"

/-- Deferred extraction operation: the defunctionalised closures produced by
`_create_tar_extract_func`, `_create_zip_extract_func` and
`extract_single_file`. -/
inductive ExtractOp where
  | regularFile (fileData : Bytes) (mode : Nat) (name : String)
  | tarDirectory (prefixLen : Nat) (dirName : String) (members : List TarMember)
  | zipDirectory (prefixLen : Nat) (dirName : String) (infos : List ZipInfo)
  | singleFile (data : Bytes) (decompressor : Option Decomp) (mode : Nat)
  deriving Repr, DecidableEq

/-- Represents a file extracted from an archive (`ExtractedFile` in extract.py). -/
structure ExtractedFile where
  name : String
  archive_name : String
  mode : Nat
  extract : ExtractOp
  is_dir : Bool
  deriving Repr, DecidableEq

/-- Python exception values that can escape the embedded functions:
`ExtractionError(message, candidates)`, `ValueError(message)`, and OS-level
errors raised by filesystem primitives during materialisation. -/
inductive PyErr where
  | extraction (message : String) (candidates : List ExtractedFile)
  | valueError (message : String)
  | osError (message : String)
  deriving Repr, DecidableEq

/-- Whether an error is an `ExtractionError`. -/
def PyErr.isExtraction : PyErr → Bool
  | .extraction _ _ => true
  | _ => false

/-- External libraries abstracted as oracles: the three codecs
(`gzip`/`bz2`/`lzma` modules) and the two container parsers (`tarfile`,
`zipfile`).  `Except.error` carries the stringified exception. -/
structure Libs where
  gzip : Bytes → Except String Bytes
  bzip2 : Bytes → Except String Bytes
  xz : Bytes → Except String Bytes
  parseTar : Bytes → Except String (List TarMember)
  parseZip : Bytes → Except String (List ZipInfo)

/-- Decidable equality for `Except`, by constructor analysis. -/
def exceptDecEq {ε α : Type} [DecidableEq ε] [DecidableEq α] :
    (a b : Except ε α) → Decidable (a = b)
  | .ok x, .ok y =>
    match decEq x y with
    | isTrue h => isTrue (by rw [h])
    | isFalse h => isFalse (by intro hc; injection hc; contradiction)
  | .ok _, .error _ => isFalse (by intro hc; cases hc)
  | .error _, .ok _ => isFalse (by intro hc; cases hc)
  | .error x, .error y =>
    match decEq x y with
    | isTrue h => isTrue (by rw [h])
    | isFalse h => isFalse (by intro hc; injection hc; contradiction)

instance {ε α : Type} [DecidableEq ε] [DecidableEq α] : DecidableEq (Except ε α) :=
  exceptDecEq

/-! ### String helpers mirroring the `pathlib`/`str` operations used.

These are defined over the character list of the string so they evaluate by
kernel reduction (string indices in Python are character-based, matching
`List Char` positions). -/

/-- `str.endswith(suf)`. -/
def strEndsWith (s suf : String) : Bool :=
  suf.data.isSuffixOf s.data

/-- `str.startswith(pre)`. -/
def strStartsWith (s p : String) : Bool :=
  p.data.isPrefixOf s.data

/-- `s[n:]` — drop the first `n` characters. -/
def strDrop (s : String) (n : Nat) : String :=
  String.mk (s.data.drop n)

/-- `s[:-n]` — drop the last `n` characters. -/
def strDropRight (s : String) (n : Nat) : String :=
  String.mk (s.data.take (s.data.length - n))

/-- `len(s)` in characters. -/
def strLen (s : String) : Nat :=
  s.data.length

/-- `c in s` for a single character. -/
def strContains (s : String) (c : Char) : Bool :=
  s.data.contains c

/-- `Path(s).name`: the final path component.  Trailing slashes are dropped
and the part after the last `/` is taken (normalisation of `.` components,
which never arises for archive member names, is not modelled). -/
def pathName (s : String) : String :=
  let rev := s.data.reverse.dropWhile (fun c => c = '/')
  String.mk ((rev.takeWhile (fun c => c ≠ '/')).reverse)

/-- `str.removesuffix`: drop `suf` from the end of `s` if present. -/
def removeSuffix1 (s suf : String) : String :=
  if strEndsWith s suf then strDropRight s (strLen suf) else s

/-- `str.removeprefix("/")` as used on relative member paths. -/
def stripLeadSlash (s : String) : String :=
  if strStartsWith s "/" then strDrop s 1 else s

/-! ### `fnmatch.fnmatch` (POSIX case: `normcase` is the identity).
Implemented with explicit fuel so that the function is structurally
recursive and evaluates by kernel reduction; each recursive call consumes
one unit of fuel and strictly shrinks `pattern.length + name.length`, so
fuel `pattern.length + name.length + 1` never runs out. -/

/-- Scan for the closing `]` of a character class, returning the body and
the remainder of the pattern. -/
def findClose : List Char → Option (List Char × List Char)
  | [] => none
  | ']' :: rest => some ([], rest)
  | c :: rest => (findClose rest).map (fun br => (c :: br.1, br.2))

/-- Parse a character class after `[`: optional `!` negation, then a body in
which a leading `]` is literal.  Returns `none` when there is no closing
`]` (the `[` is then matched literally, as in `fnmatch.translate`). -/
def parseClass (ps : List Char) : Option (Bool × List Char × List Char) :=
  let neg := ps.head? = some '!'
  let after := if neg then ps.tail else ps
  match after with
  | ']' :: rest2 => (findClose rest2).map (fun br => (neg, ']' :: br.1, br.2))
  | rest2 => (findClose rest2).map (fun br => (neg, br.1, br.2))

/-- Membership of a character in a class body, with `a-z` ranges; a
trailing `-` is literal, matching regex character-class semantics. -/
def classMember : List Char → Char → Bool
  | x :: '-' :: y :: rest, c =>
    (x.toNat ≤ c.toNat && c.toNat ≤ y.toNat) || classMember rest c
  | x :: rest, c => x = c || classMember rest c
  | [], _ => false

/-- Fueled glob matcher over character lists, anchored at both ends. -/
def globMatchFuel : Nat → List Char → List Char → Bool
  | 0, _, _ => false
  | _ + 1, [], cs => cs.isEmpty
  | f + 1, '*' :: ps, cs =>
    globMatchFuel f ps cs ||
      (match cs with
       | [] => false
       | _ :: cs2 => globMatchFuel f ('*' :: ps) cs2)
  | f + 1, '?' :: ps, cs =>
    (match cs with
     | [] => false
     | _ :: cs2 => globMatchFuel f ps cs2)
  | f + 1, '[' :: ps, cs =>
    (match parseClass ps with
     | some nbr =>
       (match cs with
        | [] => false
        | c :: cs2 => (nbr.1 != classMember nbr.2.1 c) && globMatchFuel f nbr.2.2 cs2)
     | none =>
       (match cs with
        | [] => false
        | c :: cs2 => (c = '[') && globMatchFuel f ps cs2))
  | f + 1, p :: ps, cs =>
    (match cs with
     | [] => false
     | c :: cs2 => (p = c) && globMatchFuel f ps cs2)

/-- `fnmatch.fnmatch(name, pattern)`. -/
def fnmatchB (name pattern : String) : Bool :=
  globMatchFuel (strLen pattern + strLen name + 1) pattern.data name.data

/-! ### Executable-detection heuristic and renaming policy. -/

/-- `_is_definitely_not_exec` from extract.py. -/
def isDefinitelyNotExec (filename : String) : Bool :=
  strEndsWith filename ".deb" || strEndsWith filename ".1" || strEndsWith filename ".txt"

/-- `is_exec` from extract.py: mode bits first (unless denylisted), then the
denylist, then extension / extensionless-basename heuristics. -/
def is_exec (filename : String) (mode : Nat) : Bool :=
  if mode &&& 0o111 != 0 && !isDefinitelyNotExec filename then true
  else if isDefinitelyNotExec filename then false
  else
    strEndsWith filename ".exe" || strEndsWith filename ".appimage" ||
      !strContains (pathName filename) '.'

/-- The executable-detection rule as the specification words it: a 5-step
ordered rule, denylist first. -/
def isExecSpec (filename : String) (mode : Nat) : Bool :=
  if isDefinitelyNotExec filename then false
  else if mode &&& 0o111 != 0 then true
  else if strEndsWith filename ".exe" || strEndsWith filename ".appimage" then true
  else if !strContains (pathName filename) '.' then true
  else false

/-- `rename` from extract.py. -/
def rename (filename : String) (nameguess : String) : String :=
  if isDefinitelyNotExec filename then filename
  else if strEndsWith filename ".appimage" then strDropRight filename 9
  else if strEndsWith filename ".exe" then filename
  else nameguess

/-! ### The three member choosers. -/

/-- `binary_chooser` from extract.py. -/
def binary_chooser (name : String) (isDir : Bool) (mode : Nat) (tool : String) :
    Bool × Bool :=
  if isDir then (false, false)
  else
    let basename := pathName name
    let isMatch :=
      basename == tool || basename == tool ++ ".exe" || basename == tool ++ ".appimage"
    let isPossible := !isDir && is_exec name mode
    (isMatch && isPossible, isPossible)

/-- `literal_file_chooser` from extract.py. -/
def literal_file_chooser (name : String) (_isDir : Bool) (_mode : Nat)
    (filename : String) : Bool × Bool :=
  (false, pathName name == pathName filename && strEndsWith name filename)

/-- `glob_chooser` from extract.py. -/
def glob_chooser (name : String) (_isDir : Bool) (_mode : Nat) (pattern : String) :
    Bool × Bool :=
  if pattern == "*" || pattern == "/" then (true, true)
  else
    let name2 := removeSuffix1 name "/"
    let pat2 := removeSuffix1 pattern "/"
    let basename := pathName name2
    (false, fnmatchB basename pat2 || fnmatchB name2 pat2)

/-- `_decompress_data` from extract.py: a codec failure is wrapped into an
`ExtractionError` with the `Failed to decompress with <alg>` message. -/
def decompressData (libs : Libs) (d : Option Decomp) (data : Bytes) :
    Except PyErr Bytes :=
  match d with
  | none => .ok data
  | some c =>
    match (match c with
           | .gzip => libs.gzip data
           | .bzip2 => libs.bzip2 data
           | .xz => libs.xz data) with
    | .ok r => .ok r
    | .error e =>
      .error (.extraction ("Failed to decompress with " ++ decompName c ++ ": " ++ e) [])

/-! ### Candidate resolver (`_process_archive_candidates`). -/

/-- Construction of a candidate `ExtractedFile` from a selected member: a
trailing slash is added to directory names, the member is renamed with its
own name as the guess (`rename(name, name)` in the source), and the
type-specific extraction operation is attached. -/
def mkCandidate (mkOp : ArchiveFileInfo → ExtractOp) (fi : ArchiveFileInfo) :
    ExtractedFile :=
  let dname := if fi.is_dir && !strEndsWith fi.name "/" then fi.name ++ "/" else fi.name
  { name := rename dname dname
    archive_name := fi.name
    mode := fi.mode
    extract := mkOp fi
    is_dir := fi.is_dir }

/-- The candidate-collection loop of `_process_archive_candidates`: walks the
member list in enumeration order, skipping members under an already-selected
directory, and returns the selected candidates paired with their
direct-match flag.  Selected directories claim their name as a skip
prefix. -/
def resolveCandidates (chooserFn : String → Bool → Nat → Bool × Bool)
    (mkOp : ArchiveFileInfo → ExtractOp) :
    List String → List ArchiveFileInfo → List (ExtractedFile × Bool)
  | _, [] => []
  | dirs, fi :: rest =>
    if dirs.any (fun d => strStartsWith fi.name d) then
      resolveCandidates chooserFn mkOp dirs rest
    else if (chooserFn fi.name fi.is_dir fi.mode).1 ||
        (chooserFn fi.name fi.is_dir fi.mode).2 then
      (mkCandidate mkOp fi, (chooserFn fi.name fi.is_dir fi.mode).1) ::
        resolveCandidates chooserFn mkOp
          (if fi.is_dir then dirs ++ [fi.name] else dirs) rest
    else resolveCandidates chooserFn mkOp dirs rest

/-- The candidate-selection logic of lines 366-388 of extract.py, applied to
the collected candidate list and direct-candidate list (`patternArg` is
`chooser_args.get("pattern")`). -/
def selectCandidate (candidates directCandidates : List ExtractedFile)
    (patternArg : Option String) (multiple : Bool) : Except PyErr ExtractedFile :=
  match directCandidates, multiple with
  | d :: _, true => .ok d
  | _, _ =>
    match candidates with
    | [c] => .ok c
    | [] => .error (.extraction "Target not found in archive" [])
    | c :: rest =>
      if patternArg == some "*" && !multiple then
        .error (.extraction (toString (c :: rest).length ++ " candidates found") (c :: rest))
      else if !multiple then
        .error (.extraction (toString (c :: rest).length ++ " candidates found") (c :: rest))
      else .ok c

/-- `_process_archive_candidates`: collect the candidates in enumeration
order, then select. -/
def processArchiveCandidates (fileInfos : List ArchiveFileInfo)
    (chooserFn : String → Bool → Nat → Bool × Bool) (patternArg : Option String)
    (mkOp : ArchiveFileInfo → ExtractOp) (multiple : Bool) :
    Except PyErr ExtractedFile :=
  selectCandidate
    ((resolveCandidates chooserFn mkOp [] fileInfos).map (fun p => p.1))
    (((resolveCandidates chooserFn mkOp [] fileInfos).filter (fun p => p.2)).map
      (fun p => p.1))
    patternArg multiple

/-- The selection policy as the specification words it: prefer the first
direct match (in enumeration order) when multiple matches are allowed;
otherwise a unique candidate is returned, zero candidates is "Target not
found in archive", several candidates without `allowMultiple` is the
ambiguity error stating the count, and `allowMultiple` without a direct
match falls back to the first candidate. -/
def selectionPolicySpec (pairs : List (ExtractedFile × Bool)) (multiple : Bool) :
    Except PyErr ExtractedFile :=
  match multiple, pairs.find? (fun p => p.2) with
  | true, some p => .ok p.1
  | _, _ =>
    match pairs.map (fun p => p.1) with
    | [c] => .ok c
    | [] => .error (.extraction "Target not found in archive" [])
    | c :: rest =>
      if multiple then .ok c
      else .error (.extraction (toString (c :: rest).length ++ " candidates found") (c :: rest))

/-! ### Archive readers (`_extract_tar`, `_extract_zip`). -/

/-- The `ArchiveFileInfo` list collected in the first pass of `_extract_tar`. -/
def tarFileInfos (members : List TarMember) : List ArchiveFileInfo :=
  members.map (fun m =>
    { name := m.name
      is_dir := m.kind == .dir
      mode := m.mode
      linkname := m.linkname
      is_symlink := m.kind == .symlink
      is_hardlink := m.kind == .hardlink })

/-- The `all_file_data` dictionary of `_extract_tar` (content is read for
members that are neither directories nor links; later duplicates
overwrite), with the `b""` default of `.get`. -/
def tarFileData (members : List TarMember) (name : String) : Bytes :=
  match (members.filter (fun m => m.kind == TarKind.file && m.name == name)).getLast? with
  | some m => m.data
  | none => []

/-- `_create_tar_extract_func`: regular files capture their bytes, selected
directories re-walk the archive filtered by their name as a path prefix. -/
def tarMkOp (members : List TarMember) (fi : ArchiveFileInfo) : ExtractOp :=
  if !fi.is_dir then .regularFile (tarFileData members fi.name) fi.mode fi.name
  else .tarDirectory (strLen fi.name) fi.name members

/-- Zip entry mode: upper 16 bits of the external attributes masked to the
permission bits when the attributes are nonzero, else `0o644`. -/
def zipModeOf (attr : Nat) : Nat :=
  if attr > 0 then (attr >>> 16) &&& 0o777 else 0o644

/-- The `ArchiveFileInfo` list collected in the first pass of `_extract_zip`:
directories are the entries whose stored name ends with a slash. -/
def zipFileInfos (infos : List ZipInfo) : List ArchiveFileInfo :=
  infos.map (fun i =>
    { name := i.filename
      is_dir := strEndsWith i.filename "/"
      mode := zipModeOf i.external_attr })

/-- `zip_file.read(name)`: lookup by stored name, later duplicates winning,
with a `b""` default. -/
def zipFileData (infos : List ZipInfo) (name : String) : Bytes :=
  match (infos.filter (fun i => i.filename == name)).getLast? with
  | some i => i.data
  | none => []

/-- `_create_zip_extract_func`. -/
def zipMkOp (infos : List ZipInfo) (fi : ArchiveFileInfo) : ExtractOp :=
  if !fi.is_dir then .regularFile (zipFileData infos fi.name) fi.mode fi.name
  else .zipDirectory (strLen fi.name) fi.name infos

/-- `_extract_tar`: parse, collect member info and data, resolve.  A
`tarfile.TarError` becomes `ExtractionError("Failed to extract tar: ...")`. -/
def extract_tar (libs : Libs) (data : Bytes)
    (chooserFn : String → Bool → Nat → Bool × Bool) (patternArg : Option String)
    (multiple : Bool) : Except PyErr ExtractedFile :=
  match libs.parseTar data with
  | .error e => .error (.extraction ("Failed to extract tar: " ++ e) [])
  | .ok members =>
    processArchiveCandidates (tarFileInfos members) chooserFn patternArg
      (tarMkOp members) multiple

/-- `_extract_zip`, analogous to `_extract_tar`. -/
def extract_zip (libs : Libs) (data : Bytes)
    (chooserFn : String → Bool → Nat → Bool × Bool) (patternArg : Option String)
    (multiple : Bool) : Except PyErr ExtractedFile :=
  match libs.parseZip data with
  | .error e => .error (.extraction ("Failed to extract zip: " ++ e) [])
  | .ok infos =>
    processArchiveCandidates (zipFileInfos infos) chooserFn patternArg
      (zipMkOp infos) multiple

/-! ### Single-file extraction and the `extract_file` entry point. -/

/-- `extract_single_file`: the renamed output and the `0o666`-based mode are
computed eagerly, decompression is deferred into the extraction
operation. -/
def extract_single_file (data : Bytes) (filename : String) (renameTo : String)
    (dec : Option Decomp) : ExtractedFile :=
  let name := rename filename renameTo
  let mode := 0o666 ||| (if is_exec name 0o666 then 0o111 else 0)
  { name := name
    archive_name := filename
    mode := mode
    extract := .singleFile data dec mode
    is_dir := false }

/-- `if not tool: tool = filename`. -/
def effectiveTool (tool filename : String) : String :=
  if tool = "" then filename else tool

/-- `if not chooser_arg: chooser_arg = tool` (`None` and `""` both default). -/
def effectiveChooserArg (chooserArg : Option String) (tool : String) : String :=
  match chooserArg with
  | none => tool
  | some s => if s = "" then tool else s

/-- Chooser dispatch of extract.py lines 549-560: the chooser function with
its argument bound, plus `chooser_args.get("pattern")` (only the glob
chooser stores a `pattern` key).  `none` signals the unknown-chooser
`ValueError`. -/
def chooserOf (chooserType : String) (arg : String) :
    Option ((String → Bool → Nat → Bool × Bool) × Option String) :=
  if chooserType == "binary" then some (fun n d m => binary_chooser n d m arg, none)
  else if chooserType == "literal" then
    some (fun n d m => literal_file_chooser n d m arg, none)
  else if chooserType == "glob" then
    some (fun n d m => glob_chooser n d m arg, some arg)
  else none

/-- Filename classification implicit in the extension if-chain of
`extract_file` (lines 562-584), in source order. -/
inductive FileFormat where
  | tarGz
  | tarBz2
  | tarXz
  | tar
  | zip
  | gz
  | bz2
  | xz
  | plain
  deriving Repr, DecidableEq

/-- The extension dispatch of `extract_file`: purely filename-driven. -/
def classifyExtension (filename : String) : FileFormat :=
  if strEndsWith filename ".tar.gz" || strEndsWith filename ".tgz" then .tarGz
  else if strEndsWith filename ".tar.bz2" || strEndsWith filename ".tbz" then .tarBz2
  else if strEndsWith filename ".tar.xz" || strEndsWith filename ".txz" then .tarXz
  else if strEndsWith filename ".tar" then .tar
  else if strEndsWith filename ".zip" then .zip
  else if strEndsWith filename ".gz" then .gz
  else if strEndsWith filename ".bz2" then .bz2
  else if strEndsWith filename ".xz" then .xz
  else .plain

/-- `extract_file`, the entry point: argument defaulting, chooser selection
(an unknown chooser type raises `ValueError` before the `try` block), then
the extension dispatch.  The final `except` clause of the source only
re-wraps non-`ExtractionError` exceptions, and every error produced inside
the dispatch is already an `ExtractionError`, so it is the identity here. -/
def extract_file (libs : Libs) (filename : String) (data : Bytes) (tool : String)
    (chooserType : String) (chooserArg : Option String) (multiple : Bool) :
    Except PyErr ExtractedFile :=
  match chooserOf chooserType
      (effectiveChooserArg chooserArg (effectiveTool tool filename)) with
  | none => .error (.valueError ("Unknown chooser type: " ++ chooserType))
  | some fp =>
    match classifyExtension filename with
    | .tarGz =>
      match decompressData libs (some .gzip) data with
      | .error e => .error e
      | .ok d => extract_tar libs d fp.1 fp.2 multiple
    | .tarBz2 =>
      match decompressData libs (some .bzip2) data with
      | .error e => .error e
      | .ok d => extract_tar libs d fp.1 fp.2 multiple
    | .tarXz =>
      match decompressData libs (some .xz) data with
      | .error e => .error e
      | .ok d => extract_tar libs d fp.1 fp.2 multiple
    | .tar => extract_tar libs data fp.1 fp.2 multiple
    | .zip => extract_zip libs data fp.1 fp.2 multiple
    | .gz =>
      .ok (extract_single_file data filename (effectiveTool tool filename) (some .gzip))
    | .bz2 =>
      .ok (extract_single_file data filename (effectiveTool tool filename) (some .bzip2))
    | .xz =>
      .ok (extract_single_file data filename (effectiveTool tool filename) (some .xz))
    | .plain => .ok (extract_single_file data filename (effectiveTool tool filename) none)

/-! ### The download layer's classifier (`extract_archive` in download.py),
which is where gzip magic-byte sniffing lives. -/

/-- Archive kinds handled by `download.extract_archive`. -/
inductive DlArchiveKind where
  | tarGz
  | tarBz2
  | zip
  deriving Repr, DecidableEq

/-- The format decision of `download.extract_archive`: the first bytes are
read and content starting with the gzip magic `1F 8B` forces gzip-tar
handling regardless of the filename; otherwise the extension decides, and
an unrecognised extension raises `ValueError`. -/
def extractArchiveKind (archivePath : String) (data : Bytes) :
    Except String DlArchiveKind :=
  let isGzip := [0x1f, 0x8b].isPrefixOf data
  if isGzip || strEndsWith archivePath ".tar.gz" || strEndsWith archivePath ".tgz" then
    .ok .tarGz
  else if strEndsWith archivePath ".tar.bz2" || strEndsWith archivePath ".tbz2" then
    .ok .tarBz2
  else if strEndsWith archivePath ".zip" then .ok .zip
  else .error ("Unsupported archive format: " ++ archivePath)

/-! ### Materialiser: the filesystem model and `ExtractedFile.extract`.

The filesystem is a flat map from path strings to entries.  `mkdir` with
`exist_ok=True` still raises when the path holds a non-directory
(`FileExistsError`), writing bytes where a directory sits raises
`IsADirectoryError`, and `unlink` on a directory raises — these are the OS
behaviours the extraction walkers can hit.  OS-level symlink traversal by
`write_bytes`/`exists` and ancestor creation by `parents=True` are outside
the model. -/

/-- A filesystem entry. -/
inductive Entry where
  | file (data : Bytes) (mode : Nat)
  | dir
  | symlink (target : String)
  deriving Repr, DecidableEq

/-- Flat filesystem: path string to entry. -/
abbrev FS := String → Option Entry

/-- The empty filesystem. -/
def fsEmpty : FS := fun _ => none

/-- Point update of a filesystem. -/
def FS.set (fs : FS) (p : String) (v : Option Entry) : FS :=
  fun q => if q = p then v else fs q

/-- `Path.mkdir(parents=True, exist_ok=True)` at the target path: an
existing directory is fine, an existing non-directory raises. -/
def mkdirAt (fs : FS) (p : String) : FS × Option PyErr :=
  match fs p with
  | some (Entry.file _ _) => (fs, some (.osError ("FileExistsError: " ++ p)))
  | some (Entry.symlink _) => (fs, some (.osError ("FileExistsError: " ++ p)))
  | some Entry.dir => (fs, none)
  | none => (fs.set p (some Entry.dir), none)

/-- `_write_file`: write bytes then chmod; writing onto a directory raises. -/
def writeFileAt (fs : FS) (p : String) (data : Bytes) (mode : Nat) :
    FS × Option PyErr :=
  match fs p with
  | some Entry.dir => (fs, some (.osError ("IsADirectoryError: " ++ p)))
  | _ => (fs.set p (some (Entry.file data mode)), none)

/-- `Path` joining as used for `to_path / rel_path` (an empty relative part
yields the base path itself). -/
def joinPath (base rel : String) : String :=
  if rel = "" then base else base ++ "/" ++ rel

/-- The relative path computed in `_extract_tar_directory`:
`member.name[prefix_len:].removeprefix("/")`. -/
def tarRel (prefixLen : Nat) (name : String) : String :=
  stripLeadSlash (strDrop name prefixLen)

/-- Destination of a tar member during directory extraction. -/
def tarTargetOf (toPath : String) (prefixLen : Nat) (m : TarMember) : String :=
  joinPath toPath (tarRel prefixLen m.name)

/-- One member of the `_extract_tar_directory` walk: members outside the
claimed prefix are skipped; directories are created; symlinks replace an
existing entry; hardlinks unlink the destination and then attempt
`link_to`, whose failure is suppressed (`Path.link_to` creates the link at
the *argument* path pointing to the destination, which was just removed,
so the attempt never succeeds and is modelled by the guarded branch);
regular files are written with the executable-forcing rule applied to the
full destination path string. -/
def tarEntryStep (fs : FS) (kind : TarKind) (linkname : String) (fileData : Bytes)
    (fileMode : Nat) (target : String) : FS × Option PyErr :=
  match kind with
  | .dir => mkdirAt fs target
  | .symlink =>
    match fs target with
    | some Entry.dir => (fs, some (.osError ("IsADirectoryError: " ++ target)))
    | _ => (fs.set target (some (Entry.symlink linkname)), none)
  | .hardlink =>
    match fs target with
    | some Entry.dir => (fs, some (.osError ("IsADirectoryError: " ++ target)))
    | some _ =>
      match (fs.set target none) target with
      | some e => ((fs.set target none).set linkname (some e), none)
      | none => (fs.set target none, none)
    | none => (fs, none)
  | .file =>
    writeFileAt fs target fileData
      (if is_exec target fileMode then fileMode ||| 0o111 else fileMode)

/-- One member of the walk: members outside the claimed prefix are skipped,
the rest are dispatched on their kind at their computed destination. -/
def tarDirStep (toPath : String) (prefixLen : Nat) (dirName : String) (fs : FS)
    (m : TarMember) : FS × Option PyErr :=
  if strStartsWith m.name dirName then
    tarEntryStep fs m.kind m.linkname m.data m.mode (tarTargetOf toPath prefixLen m)
  else (fs, none)

/-- The member loop of `_extract_tar_directory`; the first raised error
aborts the remaining iterations. -/
def runTarMembers (toPath : String) (prefixLen : Nat) (dirName : String) :
    FS → List TarMember → FS × Option PyErr
  | fs, [] => (fs, none)
  | fs, m :: ms =>
    match tarDirStep toPath prefixLen dirName fs m with
    | (fs2, some e) => (fs2, some e)
    | (fs2, none) => runTarMembers toPath prefixLen dirName fs2 ms

/-- `_extract_tar_directory`: create the destination, then walk the
members. -/
def extractTarDirectory (toPath : String) (prefixLen : Nat) (dirName : String)
    (members : List TarMember) (fs : FS) : FS × Option PyErr :=
  match mkdirAt fs toPath with
  | (fs2, some e) => (fs2, some e)
  | (fs2, none) => runTarMembers toPath prefixLen dirName fs2 members

/-- Destination of a zip entry during directory extraction (no
`removeprefix` on the relative part here, matching the source). -/
def zipTargetOf (toPath : String) (prefixLen : Nat) (i : ZipInfo) : String :=
  joinPath toPath (strDrop i.filename prefixLen)

/-- Slash-terminated entries become directories, the rest are written with
the executable-forcing rule applied to the destination path string. -/
def zipEntryStep (fs : FS) (isDir : Bool) (data : Bytes) (attr : Nat)
    (target : String) : FS × Option PyErr :=
  if isDir then mkdirAt fs target
  else
    writeFileAt fs target data
      (if is_exec target (zipModeOf attr) then zipModeOf attr ||| 0o111
       else zipModeOf attr)

/-- One entry of the `_extract_zip_directory` walk: entries outside the
claimed prefix are skipped. -/
def zipDirStep (toPath : String) (prefixLen : Nat) (dirName : String)
    (infos : List ZipInfo) (fs : FS) (info : ZipInfo) : FS × Option PyErr :=
  if strStartsWith info.filename dirName then
    zipEntryStep fs (strEndsWith info.filename "/") (zipFileData infos info.filename)
      info.external_attr (zipTargetOf toPath prefixLen info)
  else (fs, none)

/-- The entry loop of `_extract_zip_directory`. -/
def runZipInfos (toPath : String) (prefixLen : Nat) (dirName : String)
    (infos : List ZipInfo) : FS → List ZipInfo → FS × Option PyErr
  | fs, [] => (fs, none)
  | fs, i :: is2 =>
    match zipDirStep toPath prefixLen dirName infos fs i with
    | (fs2, some e) => (fs2, some e)
    | (fs2, none) => runZipInfos toPath prefixLen dirName infos fs2 is2

/-- `_extract_zip_directory`. -/
def extractZipDirectory (toPath : String) (prefixLen : Nat) (dirName : String)
    (infos : List ZipInfo) (fs : FS) : FS × Option PyErr :=
  match mkdirAt fs toPath with
  | (fs2, some e) => (fs2, some e)
  | (fs2, none) => runZipInfos toPath prefixLen dirName infos fs2 infos

/-- `ExtractedFile.extract(to_path)`: dispatch of the deferred operation.
`_extract_regular_file` re-applies the executable heuristic to the archive
name, `_extract_single_file` decompresses lazily and then writes with the
captured mode. -/
def runExtract (libs : Libs) (op : ExtractOp) (toPath : String) (fs : FS) :
    FS × Option PyErr :=
  match op with
  | .regularFile data mode name =>
    let modeToUse := if is_exec name mode then mode ||| 0o111 else mode
    writeFileAt fs toPath data modeToUse
  | .singleFile data dec mode =>
    match decompressData libs dec data with
    | .error e => (fs, some e)
    | .ok d => writeFileAt fs toPath d mode
  | .tarDirectory prefixLen dirName members =>
    extractTarDirectory toPath prefixLen dirName members fs
  | .zipDirectory prefixLen dirName infos =>
    extractZipDirectory toPath prefixLen dirName infos fs

/-- Targets of the members a tar directory extraction will touch. -/
def tarTargets (toPath : String) (prefixLen : Nat) (dirName : String)
    (members : List TarMember) : List String :=
  (members.filter (fun m => strStartsWith m.name dirName)).map
    (tarTargetOf toPath prefixLen)

/-! ### Concrete library instances and archives used for evaluation. -/

/-- A tar archive with duplicate member paths: `d/u` appears twice with
different contents and `d/t` is in turn a file, a hardlink and a
directory. -/
def membersDup : List TarMember :=
  [ { name := "d", mode := 0o755, kind := .dir, linkname := "", data := [] }
  , { name := "d/u", mode := 0o644, kind := .file, linkname := "", data := [65] }
  , { name := "d/t", mode := 0o644, kind := .file, linkname := "", data := [67] }
  , { name := "d/t", mode := 0o644, kind := .hardlink, linkname := "x", data := [] }
  , { name := "d/t", mode := 0o755, kind := .dir, linkname := "", data := [] }
  , { name := "d/u", mode := 0o644, kind := .file, linkname := "", data := [66] } ]

/-- Oracles whose codecs always fail and whose tar parser yields
`membersDup`. -/
def libsDup : Libs :=
  { gzip := fun _ => .error "bad"
    bzip2 := fun _ => .error "bad"
    xz := fun _ => .error "bad"
    parseTar := fun _ => .ok membersDup
    parseZip := fun _ => .error "bad" }

/-- A tar archive holding a single executable with a version-suffixed name. -/
def membersVer : List TarMember :=
  [ { name := "tool-v1.2", mode := 0o755, kind := .file, linkname := "", data := [7] } ]

/-- Oracles whose tar parser yields `membersVer`. -/
def libsVer : Libs :=
  { gzip := fun _ => .error "bad"
    bzip2 := fun _ => .error "bad"
    xz := fun _ => .error "bad"
    parseTar := fun _ => .ok membersVer
    parseZip := fun _ => .error "bad" }

/-- A tar archive holding exactly one executable whose path equals the tool
name. -/
def membersOne : List TarMember :=
  [ { name := "other.txt", mode := 0o644, kind := .file, linkname := "", data := [3] }
  , { name := "mytool", mode := 0o644, kind := .file, linkname := "", data := [9] } ]

/-- Oracles whose tar parser yields `membersOne`. -/
def libsOne : Libs :=
  { gzip := fun _ => .error "bad"
    bzip2 := fun _ => .error "bad"
    xz := fun _ => .error "bad"
    parseTar := fun _ => .ok membersOne
    parseZip := fun _ => .error "bad" }

/-- Zip entry mode as the specification words it: derived from the upper 16
bits of the external attributes when they are present (nonzero), `0o644`
otherwise. -/
def zipModeSpec (attr : Nat) : Nat :=
  if attr ≠ 0 then (attr >>> 16) &&& 0o777 else 0o644

/-! ## Theorems -/

/-- C4: the executable-detection heuristic of `is_exec` coincides with the
5-step ordered rule of the specification: the `.deb`/`.1`/`.txt` denylist
always wins, then any execute permission bit, then the `.exe`/`.appimage`
extensions, then a dot-free base filename; otherwise not executable. -/
theorem is_exec_five_step_rule (filename : String) (mode : Nat) :
    is_exec filename mode = isExecSpec filename mode := by
  unfold is_exec isExecSpec
  by_cases hd : isDefinitelyNotExec filename
  · simp [hd]
  · by_cases hb : (mode &&& 0o111 != 0) = true
    · simp [hd, hb]
    · simp only [Bool.not_eq_true] at hb
      cases he : (strEndsWith filename ".exe" || strEndsWith filename ".appimage") <;>
        simp [hd, hb, he]

/-- C8: zip enumeration marks exactly the entries whose stored name ends in
a slash as directories, and derives each entry's mode from the upper 16
bits of its external attributes when present, defaulting to `0o644`. -/
theorem zip_enumeration_rule (infos : List ZipInfo) :
    (zipFileInfos infos).map (fun fi => fi.is_dir) =
        infos.map (fun i => strEndsWith i.filename "/")
      ∧ (zipFileInfos infos).map (fun fi => fi.mode) =
        infos.map (fun i => zipModeSpec i.external_attr) := by
  constructor
  · unfold zipFileInfos
    rw [List.map_map]
    rfl
  · unfold zipFileInfos
    rw [List.map_map]
    apply List.map_congr_left
    intro i _
    show zipModeOf i.external_attr = zipModeSpec i.external_attr
    unfold zipModeOf zipModeSpec
    by_cases h : i.external_attr = 0 <;> simp [h, Nat.pos_iff_ne_zero]

/-- C10: `extract_file` defaults an empty tool argument to the archive
filename and an empty or missing chooser argument to the (possibly
defaulted) tool name — calling with no tool and no chooser argument is the
same as calling with the filename for both — and whenever the filename is
nonempty the effective chooser argument is nonempty, so every chooser
invocation (which only happens for archive filenames, necessarily
nonempty) receives a nonempty argument. -/
theorem extract_file_argument_defaulting :
    (∀ (libs : Libs) (filename : String) (data : Bytes) (chooserType : String)
        (mult : Bool),
      extract_file libs filename data "" chooserType none mult =
        extract_file libs filename data filename chooserType (some filename) mult)
    ∧ (∀ (tool filename : String) (chooserArg : Option String), filename ≠ "" →
        effectiveChooserArg chooserArg (effectiveTool tool filename) ≠ "") := by
  constructor
  · intro libs filename data chooserType mult
    unfold extract_file effectiveTool effectiveChooserArg
    by_cases hfn : filename = "" <;> simp [hfn]
  · intro tool filename chooserArg hfn
    have htool : effectiveTool tool filename ≠ "" := by
      unfold effectiveTool
      by_cases ht : tool = "" <;> simp [ht, hfn]
    cases chooserArg with
    | none => exact htool
    | some s =>
      unfold effectiveChooserArg
      by_cases hs : s = "" <;> simp [hs, htool]

/-- C2 counterexample: a tar archive whose only executable member is the
version-suffixed `tool-v1.2`, resolved with tool name `tool`, yields an
`ExtractedFile` whose target name is the member's own name, not the
caller's desired output name demanded by the claim
(`rename "tool-v1.2" "tool" = "tool"`). -/
theorem rename_uses_member_name_counterexample :
    extract_file libsVer "archive.tar" [0] "tool" "binary" none false =
      .ok { name := "tool-v1.2", archive_name := "tool-v1.2", mode := 0o755,
            extract := .regularFile [7] 0o755 "tool-v1.2", is_dir := false }
    ∧ rename "tool-v1.2" "tool" = "tool"
    ∧ "tool-v1.2" ≠ "tool" := by
  refine ⟨by decide, by decide, by decide⟩

/-- C5 counterexample: content beginning with the gzip magic bytes `1F 8B`
under a filename with an unrecognised extension is classified by
`extract_file` as a plain file (no decompressor), not as gzip-compressed. -/
theorem core_ignores_gzip_magic_counterexample :
    extract_file libsVer "tool.bin" [0x1f, 0x8b, 0x08, 0x00] "tool" "binary" none false =
      .ok { name := "tool", archive_name := "tool.bin", mode := 0o777,
            extract := .singleFile [0x1f, 0x8b, 0x08, 0x00] none 0o777, is_dir := false }
    ∧ ExtractOp.singleFile [0x1f, 0x8b, 0x08, 0x00] none 0o777 ≠
        ExtractOp.singleFile [0x1f, 0x8b, 0x08, 0x00] (some Decomp.gzip) 0o777 := by
  refine ⟨by decide, by decide⟩

/-- C6 counterexample: an unknown chooser kind makes `extract_file` fail
with a `ValueError`, which is not the `ExtractionError` kind. -/
theorem unknown_chooser_valueerror_counterexample :
    extract_file libsVer "archive.tar" [0] "" "bogus" none false =
      .error (.valueError "Unknown chooser type: bogus")
    ∧ (PyErr.valueError "Unknown chooser type: bogus").isExtraction = false := by
  refine ⟨by decide, by decide⟩

/-- C7 counterexample: with a gzip codec that rejects the data (modelling a
malformed stream), `extract_file` on a containerless `tool.gz` succeeds,
deferring the decompression failure to the extraction operation, where it
surfaces with the `Failed to decompress with gzip` message. -/
theorem single_file_decompress_deferred_counterexample :
    extract_file libsDup "tool.gz" [9] "tool" "binary" none false =
      .ok { name := "tool", archive_name := "tool.gz", mode := 0o777,
            extract := .singleFile [9] (some .gzip) 0o777, is_dir := false }
    ∧ (runExtract libsDup (.singleFile [9] (some .gzip) 0o777) "p" fsEmpty).2 =
        some (.extraction "Failed to decompress with gzip: bad" []) := by
  refine ⟨by decide, by decide⟩

/-- C9 counterexample: resolving the duplicate-path archive `membersDup`
with the glob chooser yields a directory `ExtractedFile`, and running its
extraction twice at destination `out` leaves different content at `out/u`
than running it once (the second run aborts on a path that has become a
directory, after rewriting the first duplicate). -/
theorem extract_twice_differs_counterexample :
    extract_file libsDup "archive.tar" [0] "" "glob" (some "d/") false =
      .ok { name := "d/", archive_name := "d", mode := 0o755,
            extract := .tarDirectory 1 "d" membersDup, is_dir := true }
    ∧ ((runExtract libsDup (.tarDirectory 1 "d" membersDup) "out"
          (runExtract libsDup (.tarDirectory 1 "d" membersDup) "out" fsEmpty).1).1 "out/u"
        ≠ (runExtract libsDup (.tarDirectory 1 "d" membersDup) "out" fsEmpty).1 "out/u") := by
  refine ⟨by decide, by decide⟩

/-! ### Helper lemmas for the candidate resolver. -/

/-- The first element satisfying a predicate is the head of the filtered
list. -/
theorem find?_eq_head?_filter {α : Type} (p : α → Bool) (l : List α) :
    l.find? p = (l.filter p).head? := by
  induction l with
  | nil => rfl
  | cons a t ih =>
    by_cases h : p a = true
    · rw [List.find?_cons_of_pos _ h, List.filter_cons_of_pos h, List.head?_cons]
    · rw [List.find?_cons_of_neg _ h, List.filter_cons_of_neg h, ih]

/-- The source's selection logic coincides with the specification's ordered
policy over the candidate pair list. -/
theorem selectCandidate_eq_policy (pairs : List (ExtractedFile × Bool))
    (pat : Option String) (mult : Bool) :
    selectCandidate (pairs.map (fun p => p.1))
        ((pairs.filter (fun p => p.2)).map (fun p => p.1)) pat mult =
      selectionPolicySpec pairs mult := by
  unfold selectCandidate selectionPolicySpec
  rw [find?_eq_head?_filter]
  rcases hfil : pairs.filter (fun p => p.2) with _ | ⟨q, qs⟩ <;> rw [hfil] <;>
    cases mult <;>
      simp only [List.map_nil, List.map_cons, List.head?_nil, List.head?_cons]
  case nil.false =>
    rcases hc : pairs.map (fun p => p.1) with _ | ⟨c, _ | ⟨c2, cs⟩⟩ <;> rw [hc]
    by_cases hp : (pat == some "*") = true <;> simp [hp]
  case nil.true =>
    rcases hc : pairs.map (fun p => p.1) with _ | ⟨c, _ | ⟨c2, cs⟩⟩ <;> rw [hc]
    simp
  case cons.false =>
    rcases hc : pairs.map (fun p => p.1) with _ | ⟨c, _ | ⟨c2, cs⟩⟩ <;> rw [hc]
    by_cases hp : (pat == some "*") = true <;> simp [hp]

/-- C1: for every list of archive members and chooser, the resolver applies
the selection policy in order — with `allowMultiple` and a direct match it
returns the first direct match in enumeration order; otherwise a unique
candidate is returned; zero candidates fail with "Target not found in
archive"; several candidates without `allowMultiple` fail with the
ambiguity error; and `allowMultiple` without a direct match falls back to
the first candidate. -/
theorem resolver_selection_policy (fileInfos : List ArchiveFileInfo)
    (chooserFn : String → Bool → Nat → Bool × Bool) (pat : Option String)
    (mkOp : ArchiveFileInfo → ExtractOp) (mult : Bool) :
    processArchiveCandidates fileInfos chooserFn pat mkOp mult =
      selectionPolicySpec (resolveCandidates chooserFn mkOp [] fileInfos) mult := by
  unfold processArchiveCandidates
  exact selectCandidate_eq_policy _ pat mult

/-- A successful selection returns one of the collected candidate pairs. -/
theorem selectionPolicySpec_ok_mem (pairs : List (ExtractedFile × Bool))
    (mult : Bool) (ef : ExtractedFile)
    (h : selectionPolicySpec pairs mult = .ok ef) :
    ∃ q, q ∈ pairs ∧ ef = q.1 := by
  unfold selectionPolicySpec at h
  rcases hf : pairs.find? (fun p => p.2) with _ | q <;> rw [hf] at h <;>
    cases mult <;>
      rcases hc : pairs.map (fun p => p.1) with _ | ⟨c, _ | ⟨c2, cs⟩⟩ <;>
        rw [hc] at h <;> simp only [] at h
  case none.false.cons.nil =>
    cases h
    obtain ⟨q, hq1, hq2⟩ :=
      List.mem_map.mp (hc ▸ List.mem_cons_self ef ([] : List ExtractedFile))
    exact ⟨q, hq1, hq2.symm⟩
  case none.false.cons.cons => simp at h
  case none.true.cons.nil =>
    cases h
    obtain ⟨q, hq1, hq2⟩ :=
      List.mem_map.mp (hc ▸ List.mem_cons_self ef ([] : List ExtractedFile))
    exact ⟨q, hq1, hq2.symm⟩
  case none.true.cons.cons =>
    simp only [if_true] at h
    cases h
    obtain ⟨q, hq1, hq2⟩ := List.mem_map.mp (hc ▸ List.mem_cons_self ef (c2 :: cs))
    exact ⟨q, hq1, hq2.symm⟩
  case some.false.cons.nil =>
    cases h
    obtain ⟨q2, hq1, hq2⟩ :=
      List.mem_map.mp (hc ▸ List.mem_cons_self ef ([] : List ExtractedFile))
    exact ⟨q2, hq1, hq2.symm⟩
  case some.false.cons.cons => simp at h
  all_goals cases h
  all_goals exact ⟨q, List.mem_of_find?_eq_some hf, rfl⟩

/-- Every pair produced by the candidate-collection loop is the candidate
built from some member of the input list. -/
theorem resolveCandidates_src (fn : String → Bool → Nat → Bool × Bool)
    (mkOp : ArchiveFileInfo → ExtractOp) :
    ∀ (infos : List ArchiveFileInfo) (dirs : List String) (p : ExtractedFile × Bool),
      p ∈ resolveCandidates fn mkOp dirs infos →
      ∃ fi, fi ∈ infos ∧ p.1 = mkCandidate mkOp fi := by
  intro infos
  induction infos with
  | nil => intro dirs p hp; simp [resolveCandidates] at hp
  | cons fi rest ih =>
    intro dirs p hp
    rw [resolveCandidates] at hp
    split at hp
    · obtain ⟨fi2, h1, h2⟩ := ih _ p hp
      exact ⟨fi2, List.mem_cons_of_mem _ h1, h2⟩
    · split at hp
      · rcases List.mem_cons.mp hp with hp | hp
        · exact ⟨fi, List.mem_cons_self fi rest, by rw [hp]⟩
        · obtain ⟨fi2, h1, h2⟩ := ih _ p hp
          exact ⟨fi2, List.mem_cons_of_mem _ h1, h2⟩
      · obtain ⟨fi2, h1, h2⟩ := ih _ p hp
        exact ⟨fi2, List.mem_cons_of_mem _ h1, h2⟩

/-- With the binary chooser (which never selects directories, so the claimed
directory-prefix set stays empty), the collected candidates are exactly the
non-directory members passing the executable heuristic, in order. -/
theorem resolveCandidates_binary (tool : String) (mkOp : ArchiveFileInfo → ExtractOp) :
    ∀ infos : List ArchiveFileInfo,
      resolveCandidates (fun n d m => binary_chooser n d m tool) mkOp [] infos =
        (infos.filter (fun fi => !fi.is_dir && is_exec fi.name fi.mode)).map
          (fun fi => (mkCandidate mkOp fi,
            (binary_chooser fi.name fi.is_dir fi.mode tool).1)) := by
  intro infos
  induction infos with
  | nil => rfl
  | cons fi rest ih =>
    rw [resolveCandidates, List.filter_cons]
    by_cases hd : fi.is_dir = true
    · have hch : binary_chooser fi.name true fi.mode tool = (false, false) := by
        unfold binary_chooser; simp
      simp [hd, hch, ih]
    · simp only [Bool.not_eq_true] at hd
      have hch : binary_chooser fi.name false fi.mode tool =
          ((pathName fi.name == tool || pathName fi.name == tool ++ ".exe" ||
             pathName fi.name == tool ++ ".appimage") && is_exec fi.name fi.mode,
           is_exec fi.name fi.mode) := by
        unfold binary_chooser; simp
      by_cases hx : is_exec fi.name fi.mode = true
      · simp [hd, hch, hx, ih]
      · simp only [Bool.not_eq_true] at hx
        simp [hd, hch, hx, ih]

/-- Reading a point update at the written path. -/
theorem FS.set_self (fs : FS) (p : String) (v : Option Entry) : fs.set p v p = v := by
  simp [FS.set]

/-- Reading a point update elsewhere. -/
theorem FS.set_other (fs : FS) {p q : String} (v : Option Entry) (h : q ≠ p) :
    fs.set p v q = fs q := by
  simp [FS.set, h]

/-- Writing the value already present changes nothing. -/
theorem FS.set_id (fs : FS) (p : String) {v : Option Entry} (h : fs p = v) :
    fs.set p v = fs := by
  funext q
  by_cases hq : q = p
  · rw [FS.set]; rw [if_pos hq, hq, h]
  · rw [FS.set]; rw [if_neg hq]

/-- Or-ing a mask in guarantees the mask bits are set. -/
theorem or_and_mask (m c : Nat) : (m ||| c) &&& c = c := by
  apply Nat.eq_of_testBit_eq
  intro i
  rw [Nat.testBit_and, Nat.testBit_or]
  cases hm : m.testBit i <;> cases hc : c.testBit i <;> rfl

/-- C3: for every archive yielding two or more candidates and
`allowMultiple = false`, the resolver fails with an error whose message
states the candidate count and which carries exactly the full candidate
list, in enumeration order. -/
theorem resolver_ambiguity_error (fileInfos : List ArchiveFileInfo)
    (chooserFn : String → Bool → Nat → Bool × Bool) (pat : Option String)
    (mkOp : ArchiveFileInfo → ExtractOp)
    (h2 : 2 ≤ (resolveCandidates chooserFn mkOp [] fileInfos).length) :
    processArchiveCandidates fileInfos chooserFn pat mkOp false =
      .error (.extraction
        (toString (resolveCandidates chooserFn mkOp [] fileInfos).length ++
          " candidates found")
        ((resolveCandidates chooserFn mkOp [] fileInfos).map (fun p => p.1))) := by
  unfold processArchiveCandidates
  rw [selectCandidate_eq_policy]
  unfold selectionPolicySpec
  rcases hp : resolveCandidates chooserFn mkOp [] fileInfos with _ | ⟨a, _ | ⟨b, t⟩⟩
  · rw [hp] at h2; simp at h2
  · rw [hp] at h2; simp at h2
  · rcases hf : (a :: b :: t).find? (fun p => p.2) with _ | q <;> rw [hf] <;>
      simp [List.length_map]

/-- C3 witness: the archive `membersOne` under the glob chooser `*` yields
two candidates, and resolution fails with the counted ambiguity error
carrying both. -/
theorem resolver_ambiguity_error_witness :
    processArchiveCandidates (tarFileInfos membersOne)
        (fun n d m => glob_chooser n d m "*") (some "*") (tarMkOp membersOne) false =
      .error (.extraction "2 candidates found"
        [ { name := "other.txt", archive_name := "other.txt", mode := 0o644,
            extract := .regularFile [3] 0o644 "other.txt", is_dir := false }
        , { name := "mytool", archive_name := "mytool", mode := 0o644,
            extract := .regularFile [9] 0o644 "mytool", is_dir := false } ]) := by
  have h := resolver_ambiguity_error (tarFileInfos membersOne)
    (fun n d m => glob_chooser n d m "*") (some "*") (tarMkOp membersOne) (by decide)
  rw [h]
  decide

/-- C2 (amended): every `ExtractedFile` returned by the resolver is the
candidate built from one of the archive's members, whose target name is the
renaming policy applied with the member's own (display) name as the guess —
`rename(name, name)` in the source — so only the `.appimage` suffix is ever
stripped and the caller's desired output name is not used for archive
members (it is used only on the single-compressed-file path); moreover, for
a tar archive with exactly one executable member whose in-archive path
equals the tool name, the resolver returns that member with target name
`rename tool tool` and materialisation writes it with the executable bits
set. -/
theorem candidate_renaming :
    (∀ (fileInfos : List ArchiveFileInfo) (fn : String → Bool → Nat → Bool × Bool)
        (pat : Option String) (mkOp : ArchiveFileInfo → ExtractOp) (mult : Bool)
        (ef : ExtractedFile),
      processArchiveCandidates fileInfos fn pat mkOp mult = .ok ef →
      ∃ fi, fi ∈ fileInfos ∧ ef = mkCandidate mkOp fi)
    ∧ (∀ (members : List TarMember) (tool : String) (mult : Bool)
        (fi0 : ArchiveFileInfo),
      (tarFileInfos members).filter
          (fun fi => !fi.is_dir && is_exec fi.name fi.mode) = [fi0] →
      fi0.name = tool →
      processArchiveCandidates (tarFileInfos members)
          (fun n d m => binary_chooser n d m tool) none (tarMkOp members) mult =
        .ok (mkCandidate (tarMkOp members) fi0)
      ∧ (mkCandidate (tarMkOp members) fi0).name = rename tool tool
      ∧ (∀ (libs : Libs) (p : String),
          (runExtract libs (mkCandidate (tarMkOp members) fi0).extract p fsEmpty).1 p =
            some (Entry.file (tarFileData members tool) (fi0.mode ||| 0o111)))
      ∧ (fi0.mode ||| 0o111) &&& 0o111 ≠ 0) := by
  constructor
  · intro fileInfos fn pat mkOp mult ef h
    unfold processArchiveCandidates at h
    rw [selectCandidate_eq_policy] at h
    obtain ⟨q, hq1, hq2⟩ := selectionPolicySpec_ok_mem _ _ _ h
    obtain ⟨fi, hfi1, hfi2⟩ := resolveCandidates_src fn mkOp fileInfos [] q hq1
    exact ⟨fi, hfi1, hq2 ▸ hfi2⟩
  · intro members tool mult fi0 hone hname
    have hmem : fi0 ∈ (tarFileInfos members).filter
        (fun fi => !fi.is_dir && is_exec fi.name fi.mode) := by
      rw [hone]; exact List.mem_cons_self _ _
    have hpred := (List.mem_filter.mp hmem).2
    rw [Bool.and_eq_true] at hpred
    have hd : fi0.is_dir = false := by
      have := hpred.1; simpa using this
    have hx : is_exec fi0.name fi0.mode = true := hpred.2
    refine ⟨?_, ?_, ?_, ?_⟩
    · unfold processArchiveCandidates
      rw [resolveCandidates_binary, hone]
      cases hflag : (binary_chooser fi0.name fi0.is_dir fi0.mode tool).1 <;>
        cases mult <;> simp [selectCandidate, List.filter, hflag]
    · simp [mkCandidate, hd, hname]
    · intro libs p
      have hx2 : is_exec tool fi0.mode = true := hname ▸ hx
      simp [mkCandidate, tarMkOp, hd, runExtract, hx, hx2, writeFileAt, fsEmpty,
        FS.set, hname]
    · rw [or_and_mask]; decide

/-- C2 witness: the archive `membersOne` with tool `mytool` — its single
executable member is `mytool` itself — resolves to that member, renamed per
`rename "mytool" "mytool"`, and materialisation at path `q` produces its
content with the executable bits added to the recorded `0o644` mode. -/
theorem candidate_renaming_witness :
    processArchiveCandidates (tarFileInfos membersOne)
        (fun n d m => binary_chooser n d m "mytool") none (tarMkOp membersOne) false =
      .ok (mkCandidate (tarMkOp membersOne)
        { name := "mytool", is_dir := false, mode := 0o644 })
    ∧ (runExtract libsOne
        (mkCandidate (tarMkOp membersOne)
          { name := "mytool", is_dir := false, mode := 0o644 }).extract "q" fsEmpty).1 "q" =
      some (Entry.file [9] 0o755) := by
  have h := candidate_renaming.2 membersOne "mytool" false
    { name := "mytool", is_dir := false, mode := 0o644 } (by decide) rfl
  refine ⟨h.1, ?_⟩
  have h3 := h.2.2.1 libsOne "q"
  rw [h3]
  decide

/-- C10 witness: with no tool and no chooser argument, the call equals the
fully defaulted call, and the effective chooser argument is nonempty. -/
theorem extract_file_argument_defaulting_witness :
    extract_file libsVer "a.tar" [0] "" "binary" none false =
      extract_file libsVer "a.tar" [0] "a.tar" "binary" (some "a.tar") false
    ∧ effectiveChooserArg none (effectiveTool "" "a.tar") ≠ "" :=
  ⟨extract_file_argument_defaulting.1 libsVer "a.tar" [0] "binary" false,
   extract_file_argument_defaulting.2 "" "a.tar" none (by decide)⟩

/-- Errors produced by the selection logic are `ExtractionError`s. -/
theorem selectCandidate_error_shape (cands directs : List ExtractedFile)
    (pat : Option String) (mult : Bool) (e : PyErr)
    (h : selectCandidate cands directs pat mult = .error e) :
    e.isExtraction = true := by
  unfold selectCandidate at h
  rcases directs with _ | ⟨d, ds⟩ <;> cases mult <;>
    rcases cands with _ | ⟨c, _ | ⟨c2, cs⟩⟩ <;> simp only [] at h
  all_goals first
    | (cases h <;> rfl)
    | (by_cases hp : (pat == some "*") = true <;> simp only [hp, Bool.true_and,
          Bool.false_and, Bool.not_true, Bool.not_false, Bool.and_true,
          Bool.and_false, if_true, if_false] at h <;> cases h <;> rfl)

/-- Errors produced by the decompressor wrapper are `ExtractionError`s. -/
theorem decompressData_error_shape (libs : Libs) (d : Option Decomp)
    (data : Bytes) (e : PyErr) (h : decompressData libs d data = .error e) :
    e.isExtraction = true := by
  unfold decompressData at h
  cases d with
  | none => cases h
  | some c =>
    cases c
    case gzip =>
      cases hg : libs.gzip data <;> rw [hg] at h
      · cases h; rfl
      · cases h
    case bzip2 =>
      cases hg : libs.bzip2 data <;> rw [hg] at h
      · cases h; rfl
      · cases h
    case xz =>
      cases hg : libs.xz data <;> rw [hg] at h
      · cases h; rfl
      · cases h

/-- Errors produced by `_extract_tar` are `ExtractionError`s. -/
theorem extract_tar_error_shape (libs : Libs) (data : Bytes)
    (fn : String → Bool → Nat → Bool × Bool) (pat : Option String) (mult : Bool)
    (e : PyErr) (h : extract_tar libs data fn pat mult = .error e) :
    e.isExtraction = true := by
  unfold extract_tar at h
  cases hp : libs.parseTar data <;> rw [hp] at h
  · cases h; rfl
  · unfold processArchiveCandidates at h
    exact selectCandidate_error_shape _ _ _ _ _ h

/-- Errors produced by `_extract_zip` are `ExtractionError`s. -/
theorem extract_zip_error_shape (libs : Libs) (data : Bytes)
    (fn : String → Bool → Nat → Bool × Bool) (pat : Option String) (mult : Bool)
    (e : PyErr) (h : extract_zip libs data fn pat mult = .error e) :
    e.isExtraction = true := by
  unfold extract_zip at h
  cases hp : libs.parseZip data <;> rw [hp] at h
  · cases h; rfl
  · unfold processArchiveCandidates at h
    exact selectCandidate_error_shape _ _ _ _ _ h

/-- C6 (amended): an unknown chooser kind makes `extract_file` fail with
`ValueError("Unknown chooser type: ...")` — raised before the dispatch, as
the function's docstring and the repository's own test pin down — while for
the three known chooser kinds every failure of `extract_file` is surfaced
as the single `ExtractionError` kind. -/
theorem extract_file_error_kinds :
    (∀ (libs : Libs) (filename : String) (data : Bytes) (tool : String)
        (ct : String) (ca : Option String) (mult : Bool),
      ¬(ct = "binary" ∨ ct = "literal" ∨ ct = "glob") →
      extract_file libs filename data tool ct ca mult =
        .error (.valueError ("Unknown chooser type: " ++ ct)))
    ∧ (∀ (libs : Libs) (filename : String) (data : Bytes) (tool : String)
        (ct : String) (ca : Option String) (mult : Bool) (e : PyErr),
      (ct = "binary" ∨ ct = "literal" ∨ ct = "glob") →
      extract_file libs filename data tool ct ca mult = .error e →
      e.isExtraction = true) := by
  constructor
  · intro libs filename data tool ct ca mult hct
    push_neg at hct
    have h1 : (ct == "binary") = false := by simp [hct.1]
    have h2 : (ct == "literal") = false := by simp [hct.2.1]
    have h3 : (ct == "glob") = false := by simp [hct.2.2]
    simp [extract_file, chooserOf, h1, h2, h3]
  · intro libs filename data tool ct ca mult e hct h
    have hsome : ∀ (arg : String), ∃ fp, chooserOf ct arg = some fp := by
      intro arg
      rcases hct with hct | hct | hct <;> subst hct <;>
        exact ⟨_, rfl⟩
    obtain ⟨fp, hfp⟩ := hsome
      (effectiveChooserArg ca (effectiveTool tool filename))
    unfold extract_file at h
    rw [hfp] at h
    cases hcl : classifyExtension filename <;> rw [hcl] at h
    case tarGz =>
      cases hdc : decompressData libs (some .gzip) data <;> rw [hdc] at h
      · cases h; exact decompressData_error_shape _ _ _ _ hdc
      · exact extract_tar_error_shape _ _ _ _ _ _ h
    case tarBz2 =>
      cases hdc : decompressData libs (some .bzip2) data <;> rw [hdc] at h
      · cases h; exact decompressData_error_shape _ _ _ _ hdc
      · exact extract_tar_error_shape _ _ _ _ _ _ h
    case tarXz =>
      cases hdc : decompressData libs (some .xz) data <;> rw [hdc] at h
      · cases h; exact decompressData_error_shape _ _ _ _ hdc
      · exact extract_tar_error_shape _ _ _ _ _ _ h
    case tar => exact extract_tar_error_shape _ _ _ _ _ _ h
    case zip => exact extract_zip_error_shape _ _ _ _ _ _ h
    case gz => cases h
    case bz2 => cases h
    case xz => cases h
    case plain => cases h

/-- C6 witness: the unknown chooser kind `weird` produces the `ValueError`,
and the zip-parse failure under the `binary` chooser is an
`ExtractionError`. -/
theorem extract_file_error_kinds_witness :
    extract_file libsVer "a.tar" [0] "" "weird" none false =
      .error (.valueError "Unknown chooser type: weird")
    ∧ (PyErr.extraction "Failed to extract zip: bad" []).isExtraction = true :=
  ⟨extract_file_error_kinds.1 libsVer "a.tar" [0] "" "weird" none false (by decide),
   extract_file_error_kinds.2 libsVer "b.zip" [1] "t" "binary" none false
     (PyErr.extraction "Failed to extract zip: bad" []) (Or.inl rfl) (by decide)⟩

/-- C5 (amended): gzip magic-byte precedence lives in the download layer's
`extract_archive`, where content beginning with `1F 8B` is handled as a
gzip tarball regardless of the filename; the core entry point
`extract_file` classifies by filename extension alone — a filename outside
the recognised extension table is passed through as a plain, undecompressed
file whatever bytes it contains. -/
theorem format_classification :
    (∀ (path : String) (data : Bytes), [0x1f, 0x8b].isPrefixOf data = true →
      extractArchiveKind path data = .ok .tarGz)
    ∧ (∀ (libs : Libs) (filename : String) (data : Bytes) (tool : String)
        (ca : Option String) (mult : Bool),
      classifyExtension filename = .plain →
      extract_file libs filename data tool "binary" ca mult =
        .ok (extract_single_file data filename (effectiveTool tool filename) none)) := by
  constructor
  · intro path data h
    simp [extractArchiveKind, h]
  · intro libs filename data tool ca mult hcl
    unfold extract_file
    rw [hcl]
    rfl

/-- C5 witness: gzip magic forces gzip-tar handling in the download layer
even for a `.zip` filename, and a `.bin` filename stays a plain file in the
core regardless of content. -/
theorem format_classification_witness :
    extractArchiveKind "x.zip" [0x1f, 0x8b, 0] = .ok .tarGz
    ∧ extract_file libsVer "t.bin" [0x1f, 0x8b, 0] "t" "binary" none false =
        .ok (extract_single_file [0x1f, 0x8b, 0] "t.bin" (effectiveTool "t" "t.bin") none) :=
  ⟨format_classification.1 "x.zip" [0x1f, 0x8b, 0] (by decide),
   format_classification.2 libsVer "t.bin" [0x1f, 0x8b, 0] "t" none false (by decide)⟩

/-- C7 (amended): for tar-containered compressed archives
(`.tar.gz`/`.tgz`, `.tar.bz2`/`.tbz`, `.tar.xz`/`.txz`) a codec failure is
raised eagerly by `extract_file` itself as
`ExtractionError("Failed to decompress with <alg>: ...")`; for a single
compressed file without a tar container (`.gz`, `.bz2` or `.xz`)
`extract_file` succeeds without touching the codec, and for every
decompression algorithm the same wrapped failure surfaces only when the
returned file's extract operation runs. -/
theorem decompression_failure :
    (∀ (libs : Libs) (fn : String) (data : Bytes) (tool : String)
        (ca : Option String) (mult : Bool) (msg : String),
      classifyExtension fn = .tarGz → libs.gzip data = .error msg →
      extract_file libs fn data tool "binary" ca mult =
        .error (.extraction ("Failed to decompress with gzip: " ++ msg) []))
    ∧ (∀ (libs : Libs) (fn : String) (data : Bytes) (tool : String)
        (ca : Option String) (mult : Bool) (msg : String),
      classifyExtension fn = .tarBz2 → libs.bzip2 data = .error msg →
      extract_file libs fn data tool "binary" ca mult =
        .error (.extraction ("Failed to decompress with bzip2: " ++ msg) []))
    ∧ (∀ (libs : Libs) (fn : String) (data : Bytes) (tool : String)
        (ca : Option String) (mult : Bool) (msg : String),
      classifyExtension fn = .tarXz → libs.xz data = .error msg →
      extract_file libs fn data tool "binary" ca mult =
        .error (.extraction ("Failed to decompress with xz: " ++ msg) []))
    ∧ (∀ (libs : Libs) (fn : String) (data : Bytes) (tool : String)
        (ca : Option String) (mult : Bool),
      classifyExtension fn = .gz →
      extract_file libs fn data tool "binary" ca mult =
        .ok (extract_single_file data fn (effectiveTool tool fn) (some .gzip)))
    ∧ (∀ (libs : Libs) (fn : String) (data : Bytes) (tool : String)
        (ca : Option String) (mult : Bool),
      classifyExtension fn = .bz2 →
      extract_file libs fn data tool "binary" ca mult =
        .ok (extract_single_file data fn (effectiveTool tool fn) (some .bzip2)))
    ∧ (∀ (libs : Libs) (fn : String) (data : Bytes) (tool : String)
        (ca : Option String) (mult : Bool),
      classifyExtension fn = .xz →
      extract_file libs fn data tool "binary" ca mult =
        .ok (extract_single_file data fn (effectiveTool tool fn) (some .xz)))
    ∧ (∀ (libs : Libs) (data : Bytes) (c : Decomp) (mode : Nat) (p : String)
        (fs : FS) (msg : String),
      (match c with
       | .gzip => libs.gzip data
       | .bzip2 => libs.bzip2 data
       | .xz => libs.xz data) = .error msg →
      runExtract libs (.singleFile data (some c) mode) p fs =
        (fs, some (.extraction
          ("Failed to decompress with " ++ decompName c ++ ": " ++ msg) []))) := by
  refine ⟨?_, ?_, ?_, ?_, ?_, ?_, ?_⟩
  · intro libs fn data tool ca mult msg hcl hgz
    unfold extract_file
    rw [hcl]
    unfold decompressData
    rw [hgz]
    rfl
  · intro libs fn data tool ca mult msg hcl hgz
    unfold extract_file
    rw [hcl]
    unfold decompressData
    rw [hgz]
    rfl
  · intro libs fn data tool ca mult msg hcl hgz
    unfold extract_file
    rw [hcl]
    unfold decompressData
    rw [hgz]
    rfl
  · intro libs fn data tool ca mult hcl
    unfold extract_file
    rw [hcl]
    rfl
  · intro libs fn data tool ca mult hcl
    unfold extract_file
    rw [hcl]
    rfl
  · intro libs fn data tool ca mult hcl
    unfold extract_file
    rw [hcl]
    rfl
  · intro libs data c mode p fs msg hc
    have hdc : decompressData libs (some c) data =
        .error (.extraction
          ("Failed to decompress with " ++ decompName c ++ ": " ++ msg) []) := by
      show (match (match c with
                   | Decomp.gzip => libs.gzip data
                   | Decomp.bzip2 => libs.bzip2 data
                   | Decomp.xz => libs.xz data) with
            | .ok r => .ok r
            | .error e => .error (.extraction
                ("Failed to decompress with " ++ decompName c ++ ": " ++ e) [])) =
          Except.error (PyErr.extraction
            ("Failed to decompress with " ++ decompName c ++ ": " ++ msg) [])
      rw [hc]
    simp only [runExtract, hdc]

/-- C7 witness: with the always-failing codecs of `libsDup`, tar-containered
filenames fail eagerly inside `extract_file` with the wrapped message, bare
`.gz`, `.bz2` and `.xz` filenames succeed, and each codec's extract
operation reports the same wrapped failure when run. -/
theorem decompression_failure_witness :
    extract_file libsDup "a.tar.gz" [0] "t" "binary" none false =
      .error (.extraction "Failed to decompress with gzip: bad" [])
    ∧ extract_file libsDup "b.gz" [0] "t" "binary" none false =
        .ok (extract_single_file [0] "b.gz" (effectiveTool "t" "b.gz") (some .gzip))
    ∧ extract_file libsDup "b.bz2" [0] "t" "binary" none false =
        .ok (extract_single_file [0] "b.bz2" (effectiveTool "t" "b.bz2") (some .bzip2))
    ∧ extract_file libsDup "b.xz" [0] "t" "binary" none false =
        .ok (extract_single_file [0] "b.xz" (effectiveTool "t" "b.xz") (some .xz))
    ∧ runExtract libsDup (.singleFile [0] (some .gzip) 0o777) "p" fsEmpty =
        (fsEmpty, some (.extraction "Failed to decompress with gzip: bad" []))
    ∧ runExtract libsDup (.singleFile [0] (some .bzip2) 0o777) "p" fsEmpty =
        (fsEmpty, some (.extraction "Failed to decompress with bzip2: bad" []))
    ∧ runExtract libsDup (.singleFile [0] (some .xz) 0o777) "p" fsEmpty =
        (fsEmpty, some (.extraction "Failed to decompress with xz: bad" [])) :=
  ⟨decompression_failure.1 libsDup "a.tar.gz" [0] "t" none false "bad" (by decide) rfl,
   decompression_failure.2.2.2.1 libsDup "b.gz" [0] "t" none false (by decide),
   decompression_failure.2.2.2.2.1 libsDup "b.bz2" [0] "t" none false (by decide),
   decompression_failure.2.2.2.2.2.1 libsDup "b.xz" [0] "t" none false (by decide),
   decompression_failure.2.2.2.2.2.2 libsDup [0] .gzip 0o777 "p" fsEmpty "bad" rfl,
   decompression_failure.2.2.2.2.2.2 libsDup [0] .bzip2 0o777 "p" fsEmpty "bad" rfl,
   decompression_failure.2.2.2.2.2.2 libsDup [0] .xz 0o777 "p" fsEmpty "bad" rfl⟩

/-! ### Idempotence machinery for the materialiser. -/

/-- Creating a directory where nothing exists records it. -/
theorem mkdirAt_none (fs : FS) (p : String) (h : fs p = none) :
    mkdirAt fs p = (fs.set p (some Entry.dir), none) := by
  unfold mkdirAt; rw [h]

/-- Creating a directory where one exists is a no-op. -/
theorem mkdirAt_dir (fs : FS) (p : String) (h : fs p = some Entry.dir) :
    mkdirAt fs p = (fs, none) := by
  unfold mkdirAt; rw [h]

/-- A failing `mkdir` leaves the filesystem unchanged. -/
theorem mkdirAt_abort (fs : FS) (p : String) (fs2 : FS) (e : PyErr)
    (h : mkdirAt fs p = (fs2, some e)) : fs2 = fs := by
  unfold mkdirAt at h
  repeat' split at h
  all_goals cases h
  all_goals rfl

/-- A succeeding `mkdir` leaves a directory at its path. -/
theorem mkdirAt_ok_dir (fs : FS) (p : String) (g : FS)
    (h : mkdirAt fs p = (g, none)) : g p = some Entry.dir := by
  unfold mkdirAt at h
  rcases hv : fs p with _ | e
  · rw [hv] at h; cases h; exact FS.set_self _ _ _
  · cases e <;> rw [hv] at h <;> cases h
    exact hv

/-- `mkdir` only touches its own path. -/
theorem mkdirAt_local (fs : FS) (p q : String) (h : q ≠ p) :
    (mkdirAt fs p).1 q = fs q := by
  unfold mkdirAt
  repeat' split
  all_goals simp [FS.set_other _ _ h]

/-- Writing onto a directory fails and changes nothing. -/
theorem writeFileAt_dir (fs : FS) (p : String) (d : Bytes) (mo : Nat)
    (h : fs p = some Entry.dir) :
    writeFileAt fs p d mo = (fs, some (.osError ("IsADirectoryError: " ++ p))) := by
  unfold writeFileAt; rw [h]

/-- Writing anywhere else records the file. -/
theorem writeFileAt_ok (fs : FS) (p : String) (d : Bytes) (mo : Nat)
    (h : fs p ≠ some Entry.dir) :
    writeFileAt fs p d mo = (fs.set p (some (Entry.file d mo)), none) := by
  unfold writeFileAt
  rcases hv : fs p with _ | e
  · rfl
  · cases e
    · rfl
    · exact absurd hv h
    · rfl

/-- Entry steps leave every other path untouched. -/
theorem tarEntryStep_local (fs : FS) (kind : TarKind) (linkname : String)
    (d : Bytes) (mo : Nat) (target q : String) (hq : q ≠ target) :
    (tarEntryStep fs kind linkname d mo target).1 q = fs q := by
  unfold tarEntryStep mkdirAt writeFileAt
  repeat' split
  all_goals simp_all [FS.set_self, FS.set_other _ _ hq]

/-- A failing entry step leaves the filesystem unchanged (every raising
branch raises before writing). -/
theorem tarEntryStep_abort (fs : FS) (kind : TarKind) (linkname : String)
    (d : Bytes) (mo : Nat) (target : String) (fs2 : FS) (e : PyErr)
    (h : tarEntryStep fs kind linkname d mo target = (fs2, some e)) : fs2 = fs := by
  unfold tarEntryStep mkdirAt writeFileAt at h
  repeat' split at h
  all_goals cases h
  all_goals rfl

/-- Re-running a succeeded entry step from any state that agrees with its
post-state at the target is a no-op. -/
theorem tarEntryStep_post (fs fs2 : FS) (kind : TarKind) (linkname : String)
    (d : Bytes) (mo : Nat) (target : String)
    (hok : (tarEntryStep fs kind linkname d mo target).2 = none)
    (hagree : fs2 target = (tarEntryStep fs kind linkname d mo target).1 target) :
    tarEntryStep fs2 kind linkname d mo target = (fs2, none) := by
  cases kind <;> unfold tarEntryStep mkdirAt writeFileAt at hok hagree ⊢ <;>
    rcases hv : fs target with _ | e <;> try cases e
  all_goals rw [hv] at hok hagree
  all_goals simp only [FS.set_self] at hok hagree ⊢
  all_goals (rcases hv2 : fs2 target with _ | e2 <;> try cases e2)
  all_goals simp_all [FS.set_self, FS.set_other, FS.set_id]

/-- No entry step ever removes a directory entry (every branch aborts on a
directory before modifying it). -/
theorem tarEntryStep_dirkeep (fs : FS) (kind : TarKind) (linkname : String)
    (d : Bytes) (mo : Nat) (target p : String) (h : fs p = some Entry.dir) :
    (tarEntryStep fs kind linkname d mo target).1 p = some Entry.dir := by
  by_cases hq : p = target
  · subst hq
    cases kind <;> unfold tarEntryStep mkdirAt writeFileAt <;> rw [h] <;> exact h
  · rw [tarEntryStep_local fs kind linkname d mo target p hq]
    exact h

/-- A skipped member changes nothing. -/
theorem tarDirStep_skip (toPath : String) (prefixLen : Nat) (dirName : String)
    (fs : FS) (m : TarMember) (h : ¬strStartsWith m.name dirName = true) :
    tarDirStep toPath prefixLen dirName fs m = (fs, none) := by
  unfold tarDirStep; rw [if_neg h]

/-- A matched member runs its entry step. -/
theorem tarDirStep_match (toPath : String) (prefixLen : Nat) (dirName : String)
    (fs : FS) (m : TarMember) (h : strStartsWith m.name dirName = true) :
    tarDirStep toPath prefixLen dirName fs m =
      tarEntryStep fs m.kind m.linkname m.data m.mode
        (tarTargetOf toPath prefixLen m) := by
  unfold tarDirStep; rw [if_pos h]

/-- A member step only modifies its own destination path. -/
theorem tarDirStep_local (toPath : String) (prefixLen : Nat) (dirName : String)
    (fs : FS) (m : TarMember) (q : String)
    (h : strStartsWith m.name dirName = true → q ≠ tarTargetOf toPath prefixLen m) :
    (tarDirStep toPath prefixLen dirName fs m).1 q = fs q := by
  by_cases hs : strStartsWith m.name dirName = true
  · rw [tarDirStep_match _ _ _ _ _ hs]
    exact tarEntryStep_local _ _ _ _ _ _ _ (h hs)
  · rw [tarDirStep_skip _ _ _ _ _ hs]

/-- A failing member step changes nothing. -/
theorem tarDirStep_abort (toPath : String) (prefixLen : Nat) (dirName : String)
    (fs : FS) (m : TarMember) (fs2 : FS) (e : PyErr)
    (h : tarDirStep toPath prefixLen dirName fs m = (fs2, some e)) : fs2 = fs := by
  by_cases hs : strStartsWith m.name dirName = true
  · rw [tarDirStep_match _ _ _ _ _ hs] at h
    exact tarEntryStep_abort _ _ _ _ _ _ _ _ h
  · rw [tarDirStep_skip _ _ _ _ _ hs] at h
    cases h

/-- Member steps never remove directory entries. -/
theorem tarDirStep_dirkeep (toPath : String) (prefixLen : Nat) (dirName : String)
    (fs : FS) (m : TarMember) (p : String) (h : fs p = some Entry.dir) :
    (tarDirStep toPath prefixLen dirName fs m).1 p = some Entry.dir := by
  by_cases hs : strStartsWith m.name dirName = true
  · rw [tarDirStep_match _ _ _ _ _ hs]
    exact tarEntryStep_dirkeep _ _ _ _ _ _ _ h
  · rw [tarDirStep_skip _ _ _ _ _ hs]
    exact h

/-- Re-running a succeeded member step from a state that agrees at the
member's destination is a no-op. -/
theorem tarDirStep_post (toPath : String) (prefixLen : Nat) (dirName : String)
    (fs fs2 : FS) (m : TarMember)
    (hok : (tarDirStep toPath prefixLen dirName fs m).2 = none)
    (hagree : fs2 (tarTargetOf toPath prefixLen m) =
      (tarDirStep toPath prefixLen dirName fs m).1 (tarTargetOf toPath prefixLen m)) :
    tarDirStep toPath prefixLen dirName fs2 m = (fs2, none) := by
  by_cases hs : strStartsWith m.name dirName = true
  · rw [tarDirStep_match _ _ _ _ _ hs] at hok hagree ⊢
    exact tarEntryStep_post fs fs2 _ _ _ _ _ hok hagree
  · rw [tarDirStep_skip _ _ _ _ _ hs]

/-- Unfolding one iteration of the member loop. -/
theorem runTarMembers_cons (toPath : String) (prefixLen : Nat) (dirName : String)
    (fs : FS) (m : TarMember) (rest : List TarMember) :
    runTarMembers toPath prefixLen dirName fs (m :: rest) =
      (match tarDirStep toPath prefixLen dirName fs m with
       | (fs2, some e) => (fs2, some e)
       | (fs2, none) => runTarMembers toPath prefixLen dirName fs2 rest) := rfl

/-- The member loop leaves untargeted paths untouched. -/
theorem runTarMembers_local (toPath : String) (prefixLen : Nat) (dirName : String) :
    ∀ (ms : List TarMember) (fs : FS) (q : String),
      (∀ m ∈ ms, strStartsWith m.name dirName = true →
        q ≠ tarTargetOf toPath prefixLen m) →
      (runTarMembers toPath prefixLen dirName fs ms).1 q = fs q := by
  intro ms
  induction ms with
  | nil => intro fs q _; rfl
  | cons m rest ih =>
    intro fs q h
    rw [runTarMembers_cons]
    rcases hstep : tarDirStep toPath prefixLen dirName fs m with ⟨f1, e1⟩
    cases e1
    case none =>
      have h1 : (runTarMembers toPath prefixLen dirName f1 rest).1 q = f1 q :=
        ih f1 q (fun m2 hm2 => h m2 (List.mem_cons_of_mem _ hm2))
      have h2 : f1 q = fs q := by
        have := tarDirStep_local toPath prefixLen dirName fs m q
          (h m (List.mem_cons_self _ _))
        rw [hstep] at this
        exact this
      simp only []
      rw [h1, h2]
    case some e =>
      have h2 : f1 = fs := tarDirStep_abort _ _ _ _ _ _ _ hstep
      simp only []
      rw [h2]

/-- The member loop preserves directory entries. -/
theorem runTarMembers_dirkeep (toPath : String) (prefixLen : Nat) (dirName : String) :
    ∀ (ms : List TarMember) (fs : FS) (p : String), fs p = some Entry.dir →
      (runTarMembers toPath prefixLen dirName fs ms).1 p = some Entry.dir := by
  intro ms
  induction ms with
  | nil => intro fs p h; exact h
  | cons m rest ih =>
    intro fs p h
    rw [runTarMembers_cons]
    rcases hstep : tarDirStep toPath prefixLen dirName fs m with ⟨f1, e1⟩
    have hkeep : f1 p = some Entry.dir := by
      have := tarDirStep_dirkeep toPath prefixLen dirName fs m p h
      rw [hstep] at this
      exact this
    cases e1
    case none => exact ih f1 p hkeep
    case some e => exact hkeep

/-- Re-running the member loop over its own result is a no-op on the state,
provided the matched members' destinations are pairwise distinct. -/
theorem runTarMembers_idem (toPath : String) (prefixLen : Nat) (dirName : String) :
    ∀ (ms : List TarMember) (fs : FS),
      ((ms.filter (fun m => strStartsWith m.name dirName)).map
        (tarTargetOf toPath prefixLen)).Pairwise (fun a b => a ≠ b) →
      (runTarMembers toPath prefixLen dirName
        (runTarMembers toPath prefixLen dirName fs ms).1 ms).1 =
      (runTarMembers toPath prefixLen dirName fs ms).1 := by
  intro ms
  induction ms with
  | nil => intro fs _; rfl
  | cons m rest ih =>
    intro fs hp
    by_cases hs : strStartsWith m.name dirName = true
    case neg =>
      have hfc : (m :: rest).filter (fun m2 => strStartsWith m2.name dirName) =
          rest.filter (fun m2 => strStartsWith m2.name dirName) := by
        simp [List.filter_cons, hs]
      have hpt : ((rest.filter (fun m => strStartsWith m.name dirName)).map
          (tarTargetOf toPath prefixLen)).Pairwise (fun a b => a ≠ b) := by
        rw [hfc] at hp
        exact hp
      have hstep : ∀ g : FS, tarDirStep toPath prefixLen dirName g m = (g, none) :=
        fun g => tarDirStep_skip _ _ _ _ _ hs
      have h1 : ∀ g : FS, runTarMembers toPath prefixLen dirName g (m :: rest) =
          runTarMembers toPath prefixLen dirName g rest := by
        intro g
        rw [runTarMembers_cons, hstep g]
      rw [h1, h1]
      exact ih fs hpt
    case pos =>
      have hfc : (m :: rest).filter (fun m2 => strStartsWith m2.name dirName) =
          m :: rest.filter (fun m2 => strStartsWith m2.name dirName) := by
        simp [List.filter_cons, hs]
      rw [hfc, List.map_cons, List.pairwise_cons] at hp
      obtain ⟨hhead, htail⟩ := hp
      rcases hstep : tarDirStep toPath prefixLen dirName fs m with ⟨f1, e1⟩
      cases e1
      case some e =>
        have hf1 : f1 = fs := tarDirStep_abort _ _ _ _ _ _ _ hstep
        have h1 : runTarMembers toPath prefixLen dirName fs (m :: rest) =
            (fs, some e) := by
          rw [runTarMembers_cons, hstep, hf1]
        rw [h1]
        show (runTarMembers toPath prefixLen dirName fs (m :: rest)).1 = fs
        rw [h1]
      case none =>
        have h1 : runTarMembers toPath prefixLen dirName fs (m :: rest) =
            runTarMembers toPath prefixLen dirName f1 rest := by
          rw [runTarMembers_cons, hstep]
        rw [h1]
        have hagree : (runTarMembers toPath prefixLen dirName f1 rest).1
            (tarTargetOf toPath prefixLen m) = f1 (tarTargetOf toPath prefixLen m) := by
          apply runTarMembers_local
          intro m2 hm2 hsm2
          have hmem : tarTargetOf toPath prefixLen m2 ∈
              (rest.filter (fun m => strStartsWith m.name dirName)).map
                (tarTargetOf toPath prefixLen) :=
            List.mem_map_of_mem _ (List.mem_filter.mpr ⟨hm2, hsm2⟩)
          exact hhead _ hmem
        have hstep2 : tarDirStep toPath prefixLen dirName
            (runTarMembers toPath prefixLen dirName f1 rest).1 m =
            ((runTarMembers toPath prefixLen dirName f1 rest).1, none) := by
          apply tarDirStep_post toPath prefixLen dirName fs _ m
          · rw [hstep]
          · rw [hstep]
            exact hagree
        rw [runTarMembers_cons, hstep2]
        exact ih f1 htail

/-- Unfolding `_extract_tar_directory` into its two stages. -/
theorem extractTarDirectory_eq (toPath : String) (prefixLen : Nat)
    (dirName : String) (members : List TarMember) (fs : FS) :
    extractTarDirectory toPath prefixLen dirName members fs =
      (match mkdirAt fs toPath with
       | (fs2, some e) => (fs2, some e)
       | (fs2, none) => runTarMembers toPath prefixLen dirName fs2 members) := rfl

/-- Re-running a tar directory extraction over its own result yields the
same filesystem, provided the matched members' destinations are pairwise
distinct. -/
theorem extractTarDirectory_idem (toPath : String) (prefixLen : Nat)
    (dirName : String) (members : List TarMember) (fs : FS)
    (hp : ((members.filter (fun m => strStartsWith m.name dirName)).map
      (tarTargetOf toPath prefixLen)).Pairwise (fun a b => a ≠ b)) :
    (extractTarDirectory toPath prefixLen dirName members
      (extractTarDirectory toPath prefixLen dirName members fs).1).1 =
    (extractTarDirectory toPath prefixLen dirName members fs).1 := by
  rcases hmk : mkdirAt fs toPath with ⟨g1, e1⟩
  cases e1
  case some e =>
    have hg : g1 = fs := mkdirAt_abort _ _ _ _ hmk
    have h1 : extractTarDirectory toPath prefixLen dirName members fs =
        (fs, some e) := by
      rw [extractTarDirectory_eq, hmk, hg]
    rw [h1]
    show (extractTarDirectory toPath prefixLen dirName members fs).1 = fs
    rw [h1]
  case none =>
    have hdir : g1 toPath = some Entry.dir := mkdirAt_ok_dir _ _ _ hmk
    have h1 : extractTarDirectory toPath prefixLen dirName members fs =
        runTarMembers toPath prefixLen dirName g1 members := by
      rw [extractTarDirectory_eq, hmk]
    rw [h1]
    have hdir2 : (runTarMembers toPath prefixLen dirName g1 members).1 toPath =
        some Entry.dir := runTarMembers_dirkeep _ _ _ _ _ _ hdir
    have hmk2 : mkdirAt (runTarMembers toPath prefixLen dirName g1 members).1 toPath =
        ((runTarMembers toPath prefixLen dirName g1 members).1, none) :=
      mkdirAt_dir _ _ hdir2
    rw [extractTarDirectory_eq, hmk2]
    exact runTarMembers_idem toPath prefixLen dirName members g1 hp

/-- A repeated regular-file write reproduces the same state. -/
theorem writeFileAt_idem (fs : FS) (p : String) (d : Bytes) (mo : Nat) :
    (writeFileAt (writeFileAt fs p d mo).1 p d mo).1 = (writeFileAt fs p d mo).1 := by
  by_cases hv : fs p = some Entry.dir
  · rw [writeFileAt_dir fs p d mo hv, writeFileAt_dir fs p d mo hv]
  · rw [writeFileAt_ok fs p d mo hv]
    show (writeFileAt (fs.set p (some (Entry.file d mo))) p d mo).1 =
      fs.set p (some (Entry.file d mo))
    rw [writeFileAt_ok _ p d mo (by simp [FS.set])]
    show (fs.set p (some (Entry.file d mo))).set p (some (Entry.file d mo)) =
      fs.set p (some (Entry.file d mo))
    exact FS.set_id _ _ (FS.set_self _ _ _)

/-- Re-running a succeeded `mkdir` from any state that agrees at its path
is a no-op. -/
theorem mkdirAt_post (fs fs2 : FS) (p : String)
    (hok : (mkdirAt fs p).2 = none)
    (hagree : fs2 p = (mkdirAt fs p).1 p) :
    mkdirAt fs2 p = (fs2, none) := by
  rcases hv : fs p with _ | e
  · rw [mkdirAt_none fs p hv] at hok hagree
    simp only [FS.set_self] at hagree
    exact mkdirAt_dir fs2 p hagree
  · cases e
    case dir =>
      rw [mkdirAt_dir fs p hv] at hok hagree
      simp only [] at hagree
      rw [hv] at hagree
      exact mkdirAt_dir fs2 p hagree
    case file =>
      have habort : mkdirAt fs p = (fs, some (.osError ("FileExistsError: " ++ p))) := by
        unfold mkdirAt; rw [hv]
      rw [habort] at hok; cases hok
    case symlink =>
      have habort : mkdirAt fs p = (fs, some (.osError ("FileExistsError: " ++ p))) := by
        unfold mkdirAt; rw [hv]
      rw [habort] at hok; cases hok

/-- Re-running a succeeded file write from any state that agrees at its
path is a no-op. -/
theorem writeFileAt_post (fs fs2 : FS) (p : String) (d : Bytes) (mo : Nat)
    (hok : (writeFileAt fs p d mo).2 = none)
    (hagree : fs2 p = (writeFileAt fs p d mo).1 p) :
    writeFileAt fs2 p d mo = (fs2, none) := by
  by_cases hv : fs p = some Entry.dir
  · rw [writeFileAt_dir fs p d mo hv] at hok; cases hok
  · rw [writeFileAt_ok fs p d mo hv] at hagree
    simp only [FS.set_self] at hagree
    rw [writeFileAt_ok fs2 p d mo (by rw [hagree]; intro hc; cases hc)]
    rw [FS.set_id fs2 p hagree]

/-- The directory branch of a zip entry step. -/
theorem zipEntryStep_true (fs : FS) (d : Bytes) (attr : Nat) (target : String) :
    zipEntryStep fs true d attr target = mkdirAt fs target := rfl

/-- The file branch of a zip entry step. -/
theorem zipEntryStep_false (fs : FS) (d : Bytes) (attr : Nat) (target : String) :
    zipEntryStep fs false d attr target =
      writeFileAt fs target d
        (if is_exec target (zipModeOf attr) then zipModeOf attr ||| 0o111
         else zipModeOf attr) := rfl

/-- Zip entry steps leave every other path untouched. -/
theorem zipEntryStep_local (fs : FS) (isDir : Bool) (d : Bytes) (attr : Nat)
    (target q : String) (hq : q ≠ target) :
    (zipEntryStep fs isDir d attr target).1 q = fs q := by
  cases isDir
  case true => rw [zipEntryStep_true]; exact mkdirAt_local fs target q hq
  case false =>
    rw [zipEntryStep_false]
    by_cases hv : fs target = some Entry.dir
    · rw [writeFileAt_dir _ _ _ _ hv]
    · rw [writeFileAt_ok _ _ _ _ hv]
      exact FS.set_other _ _ hq

/-- A failing zip entry step leaves the filesystem unchanged. -/
theorem zipEntryStep_abort (fs : FS) (isDir : Bool) (d : Bytes) (attr : Nat)
    (target : String) (fs2 : FS) (e : PyErr)
    (h : zipEntryStep fs isDir d attr target = (fs2, some e)) : fs2 = fs := by
  unfold zipEntryStep mkdirAt writeFileAt at h
  repeat' split at h
  all_goals cases h
  all_goals rfl

/-- Re-running a succeeded zip entry step from any state that agrees with
its post-state at the target is a no-op. -/
theorem zipEntryStep_post (fs fs2 : FS) (isDir : Bool) (d : Bytes) (attr : Nat)
    (target : String)
    (hok : (zipEntryStep fs isDir d attr target).2 = none)
    (hagree : fs2 target = (zipEntryStep fs isDir d attr target).1 target) :
    zipEntryStep fs2 isDir d attr target = (fs2, none) := by
  cases isDir
  case true =>
    rw [zipEntryStep_true] at hok hagree ⊢
    exact mkdirAt_post fs fs2 target hok hagree
  case false =>
    rw [zipEntryStep_false] at hok hagree ⊢
    exact writeFileAt_post fs fs2 target _ _ hok hagree

/-- No zip entry step ever removes a directory entry. -/
theorem zipEntryStep_dirkeep (fs : FS) (isDir : Bool) (d : Bytes) (attr : Nat)
    (target p : String) (h : fs p = some Entry.dir) :
    (zipEntryStep fs isDir d attr target).1 p = some Entry.dir := by
  by_cases hq : p = target
  · subst hq
    cases isDir
    · rw [zipEntryStep_false, writeFileAt_dir fs p _ _ h]; exact h
    · rw [zipEntryStep_true, mkdirAt_dir fs p h]; exact h
  · rw [zipEntryStep_local fs isDir d attr target p hq]
    exact h

/-- A skipped zip entry changes nothing. -/
theorem zipDirStep_skip (toPath : String) (prefixLen : Nat) (dirName : String)
    (infos : List ZipInfo) (fs : FS) (i : ZipInfo)
    (h : ¬strStartsWith i.filename dirName = true) :
    zipDirStep toPath prefixLen dirName infos fs i = (fs, none) := by
  unfold zipDirStep; rw [if_neg h]

/-- A matched zip entry runs its entry step. -/
theorem zipDirStep_match (toPath : String) (prefixLen : Nat) (dirName : String)
    (infos : List ZipInfo) (fs : FS) (i : ZipInfo)
    (h : strStartsWith i.filename dirName = true) :
    zipDirStep toPath prefixLen dirName infos fs i =
      zipEntryStep fs (strEndsWith i.filename "/") (zipFileData infos i.filename)
        i.external_attr (zipTargetOf toPath prefixLen i) := by
  unfold zipDirStep; rw [if_pos h]

/-- A zip entry step only modifies its own destination path. -/
theorem zipDirStep_local (toPath : String) (prefixLen : Nat) (dirName : String)
    (infos : List ZipInfo) (fs : FS) (i : ZipInfo) (q : String)
    (h : strStartsWith i.filename dirName = true → q ≠ zipTargetOf toPath prefixLen i) :
    (zipDirStep toPath prefixLen dirName infos fs i).1 q = fs q := by
  by_cases hs : strStartsWith i.filename dirName = true
  · rw [zipDirStep_match _ _ _ _ _ _ hs]
    exact zipEntryStep_local _ _ _ _ _ _ (h hs)
  · rw [zipDirStep_skip _ _ _ _ _ _ hs]

/-- A failing zip entry step changes nothing. -/
theorem zipDirStep_abort (toPath : String) (prefixLen : Nat) (dirName : String)
    (infos : List ZipInfo) (fs : FS) (i : ZipInfo) (fs2 : FS) (e : PyErr)
    (h : zipDirStep toPath prefixLen dirName infos fs i = (fs2, some e)) : fs2 = fs := by
  by_cases hs : strStartsWith i.filename dirName = true
  · rw [zipDirStep_match _ _ _ _ _ _ hs] at h
    exact zipEntryStep_abort _ _ _ _ _ _ _ h
  · rw [zipDirStep_skip _ _ _ _ _ _ hs] at h
    cases h

/-- Zip entry steps never remove directory entries. -/
theorem zipDirStep_dirkeep (toPath : String) (prefixLen : Nat) (dirName : String)
    (infos : List ZipInfo) (fs : FS) (i : ZipInfo) (p : String)
    (h : fs p = some Entry.dir) :
    (zipDirStep toPath prefixLen dirName infos fs i).1 p = some Entry.dir := by
  by_cases hs : strStartsWith i.filename dirName = true
  · rw [zipDirStep_match _ _ _ _ _ _ hs]
    exact zipEntryStep_dirkeep _ _ _ _ _ _ h
  · rw [zipDirStep_skip _ _ _ _ _ _ hs]
    exact h

/-- Re-running a succeeded zip entry step from a state that agrees at the
entry destination is a no-op. -/
theorem zipDirStep_post (toPath : String) (prefixLen : Nat) (dirName : String)
    (infos : List ZipInfo) (fs fs2 : FS) (i : ZipInfo)
    (hok : (zipDirStep toPath prefixLen dirName infos fs i).2 = none)
    (hagree : fs2 (zipTargetOf toPath prefixLen i) =
      (zipDirStep toPath prefixLen dirName infos fs i).1 (zipTargetOf toPath prefixLen i)) :
    zipDirStep toPath prefixLen dirName infos fs2 i = (fs2, none) := by
  by_cases hs : strStartsWith i.filename dirName = true
  · rw [zipDirStep_match _ _ _ _ _ _ hs] at hok hagree ⊢
    exact zipEntryStep_post fs fs2 _ _ _ _ hok hagree
  · rw [zipDirStep_skip _ _ _ _ _ _ hs]

/-- Unfolding one iteration of the zip entry loop. -/
theorem runZipInfos_cons (toPath : String) (prefixLen : Nat) (dirName : String)
    (infos : List ZipInfo) (fs : FS) (i : ZipInfo) (rest : List ZipInfo) :
    runZipInfos toPath prefixLen dirName infos fs (i :: rest) =
      (match zipDirStep toPath prefixLen dirName infos fs i with
       | (fs2, some e) => (fs2, some e)
       | (fs2, none) => runZipInfos toPath prefixLen dirName infos fs2 rest) := rfl

/-- The zip entry loop leaves untargeted paths untouched. -/
theorem runZipInfos_local (toPath : String) (prefixLen : Nat) (dirName : String)
    (infos : List ZipInfo) :
    ∀ (is2 : List ZipInfo) (fs : FS) (q : String),
      (∀ i ∈ is2, strStartsWith i.filename dirName = true →
        q ≠ zipTargetOf toPath prefixLen i) →
      (runZipInfos toPath prefixLen dirName infos fs is2).1 q = fs q := by
  intro is2
  induction is2 with
  | nil => intro fs q _; rfl
  | cons i rest ih =>
    intro fs q h
    rw [runZipInfos_cons]
    rcases hstep : zipDirStep toPath prefixLen dirName infos fs i with ⟨f1, e1⟩
    cases e1
    case none =>
      have h1 : (runZipInfos toPath prefixLen dirName infos f1 rest).1 q = f1 q :=
        ih f1 q (fun i2 hi2 => h i2 (List.mem_cons_of_mem _ hi2))
      have h2 : f1 q = fs q := by
        have hloc := zipDirStep_local toPath prefixLen dirName infos fs i q
          (h i (List.mem_cons_self _ _))
        rw [hstep] at hloc
        exact hloc
      simp only []
      rw [h1, h2]
    case some e =>
      have h2 : f1 = fs := zipDirStep_abort _ _ _ _ _ _ _ _ hstep
      simp only []
      rw [h2]

/-- The zip entry loop preserves directory entries. -/
theorem runZipInfos_dirkeep (toPath : String) (prefixLen : Nat) (dirName : String)
    (infos : List ZipInfo) :
    ∀ (is2 : List ZipInfo) (fs : FS) (p : String), fs p = some Entry.dir →
      (runZipInfos toPath prefixLen dirName infos fs is2).1 p = some Entry.dir := by
  intro is2
  induction is2 with
  | nil => intro fs p h; exact h
  | cons i rest ih =>
    intro fs p h
    rw [runZipInfos_cons]
    rcases hstep : zipDirStep toPath prefixLen dirName infos fs i with ⟨f1, e1⟩
    have hkeep : f1 p = some Entry.dir := by
      have hk := zipDirStep_dirkeep toPath prefixLen dirName infos fs i p h
      rw [hstep] at hk
      exact hk
    cases e1
    case none => exact ih f1 p hkeep
    case some e => exact hkeep

/-- Re-running the zip entry loop over its own result is a no-op on the
state, provided the matched entries' destinations are pairwise distinct. -/
theorem runZipInfos_idem (toPath : String) (prefixLen : Nat) (dirName : String)
    (infos : List ZipInfo) :
    ∀ (is2 : List ZipInfo) (fs : FS),
      ((is2.filter (fun i => strStartsWith i.filename dirName)).map
        (zipTargetOf toPath prefixLen)).Pairwise (fun a b => a ≠ b) →
      (runZipInfos toPath prefixLen dirName infos
        (runZipInfos toPath prefixLen dirName infos fs is2).1 is2).1 =
      (runZipInfos toPath prefixLen dirName infos fs is2).1 := by
  intro is2
  induction is2 with
  | nil => intro fs _; rfl
  | cons i rest ih =>
    intro fs hp
    by_cases hs : strStartsWith i.filename dirName = true
    case neg =>
      have hfc : (i :: rest).filter (fun i2 => strStartsWith i2.filename dirName) =
          rest.filter (fun i2 => strStartsWith i2.filename dirName) := by
        simp [List.filter_cons, hs]
      have hpt : ((rest.filter (fun i2 => strStartsWith i2.filename dirName)).map
          (zipTargetOf toPath prefixLen)).Pairwise (fun a b => a ≠ b) := by
        rw [hfc] at hp
        exact hp
      have hstep : ∀ g : FS, zipDirStep toPath prefixLen dirName infos g i = (g, none) :=
        fun g => zipDirStep_skip _ _ _ _ _ _ hs
      have h1 : ∀ g : FS, runZipInfos toPath prefixLen dirName infos g (i :: rest) =
          runZipInfos toPath prefixLen dirName infos g rest := by
        intro g
        rw [runZipInfos_cons, hstep g]
      rw [h1, h1]
      exact ih fs hpt
    case pos =>
      have hfc : (i :: rest).filter (fun i2 => strStartsWith i2.filename dirName) =
          i :: rest.filter (fun i2 => strStartsWith i2.filename dirName) := by
        simp [List.filter_cons, hs]
      rw [hfc, List.map_cons, List.pairwise_cons] at hp
      obtain ⟨hhead, htail⟩ := hp
      rcases hstep : zipDirStep toPath prefixLen dirName infos fs i with ⟨f1, e1⟩
      cases e1
      case some e =>
        have hf1 : f1 = fs := zipDirStep_abort _ _ _ _ _ _ _ _ hstep
        have h1 : runZipInfos toPath prefixLen dirName infos fs (i :: rest) =
            (fs, some e) := by
          rw [runZipInfos_cons, hstep, hf1]
        rw [h1]
        show (runZipInfos toPath prefixLen dirName infos fs (i :: rest)).1 = fs
        rw [h1]
      case none =>
        have h1 : runZipInfos toPath prefixLen dirName infos fs (i :: rest) =
            runZipInfos toPath prefixLen dirName infos f1 rest := by
          rw [runZipInfos_cons, hstep]
        rw [h1]
        have hagree : (runZipInfos toPath prefixLen dirName infos f1 rest).1
            (zipTargetOf toPath prefixLen i) = f1 (zipTargetOf toPath prefixLen i) := by
          apply runZipInfos_local
          intro i2 hi2 hsi2
          have hmem : zipTargetOf toPath prefixLen i2 ∈
              (rest.filter (fun i3 => strStartsWith i3.filename dirName)).map
                (zipTargetOf toPath prefixLen) :=
            List.mem_map_of_mem _ (List.mem_filter.mpr ⟨hi2, hsi2⟩)
          exact hhead _ hmem
        have hstep2 : zipDirStep toPath prefixLen dirName infos
            (runZipInfos toPath prefixLen dirName infos f1 rest).1 i =
            ((runZipInfos toPath prefixLen dirName infos f1 rest).1, none) := by
          apply zipDirStep_post toPath prefixLen dirName infos fs _ i
          · rw [hstep]
          · rw [hstep]
            exact hagree
        rw [runZipInfos_cons, hstep2]
        exact ih f1 htail

/-- Unfolding `_extract_zip_directory` into its two stages. -/
theorem extractZipDirectory_eq (toPath : String) (prefixLen : Nat)
    (dirName : String) (infos : List ZipInfo) (fs : FS) :
    extractZipDirectory toPath prefixLen dirName infos fs =
      (match mkdirAt fs toPath with
       | (fs2, some e) => (fs2, some e)
       | (fs2, none) => runZipInfos toPath prefixLen dirName infos fs2 infos) := rfl

/-- Re-running a zip directory extraction over its own result yields the
same filesystem, provided the matched entries' destinations are pairwise
distinct. -/
theorem extractZipDirectory_idem (toPath : String) (prefixLen : Nat)
    (dirName : String) (infos : List ZipInfo) (fs : FS)
    (hp : ((infos.filter (fun i => strStartsWith i.filename dirName)).map
      (zipTargetOf toPath prefixLen)).Pairwise (fun a b => a ≠ b)) :
    (extractZipDirectory toPath prefixLen dirName infos
      (extractZipDirectory toPath prefixLen dirName infos fs).1).1 =
    (extractZipDirectory toPath prefixLen dirName infos fs).1 := by
  rcases hmk : mkdirAt fs toPath with ⟨g1, e1⟩
  cases e1
  case some e =>
    have hg : g1 = fs := mkdirAt_abort _ _ _ _ hmk
    have h1 : extractZipDirectory toPath prefixLen dirName infos fs =
        (fs, some e) := by
      rw [extractZipDirectory_eq, hmk, hg]
    rw [h1]
    show (extractZipDirectory toPath prefixLen dirName infos fs).1 = fs
    rw [h1]
  case none =>
    have hdir : g1 toPath = some Entry.dir := mkdirAt_ok_dir _ _ _ hmk
    have h1 : extractZipDirectory toPath prefixLen dirName infos fs =
        runZipInfos toPath prefixLen dirName infos g1 infos := by
      rw [extractZipDirectory_eq, hmk]
    rw [h1]
    have hdir2 : (runZipInfos toPath prefixLen dirName infos g1 infos).1 toPath =
        some Entry.dir := runZipInfos_dirkeep _ _ _ _ _ _ _ hdir
    have hmk2 : mkdirAt (runZipInfos toPath prefixLen dirName infos g1 infos).1 toPath =
        ((runZipInfos toPath prefixLen dirName infos g1 infos).1, none) :=
      mkdirAt_dir _ _ hdir2
    rw [extractZipDirectory_eq, hmk2]
    exact runZipInfos_idem toPath prefixLen dirName infos infos g1 hp

/-- C9 (amended): invoking an `ExtractedFile`'s extract operation twice at
the same destination yields the same final filesystem as invoking it once
for regular files and single compressed files unconditionally, and for
directory extraction — both the tar and the zip materialiser — whenever
the matched members' computed destination paths are pairwise distinct;
with duplicate member paths a second invocation can abort midway and
leave different content (see the counterexample). -/
theorem extract_idempotent :
    (∀ (libs : Libs) (d : Bytes) (mo : Nat) (nm p : String) (fs : FS),
      (runExtract libs (.regularFile d mo nm) p
        (runExtract libs (.regularFile d mo nm) p fs).1).1 =
      (runExtract libs (.regularFile d mo nm) p fs).1)
    ∧ (∀ (libs : Libs) (d : Bytes) (dec : Option Decomp) (mo : Nat) (p : String)
        (fs : FS),
      (runExtract libs (.singleFile d dec mo) p
        (runExtract libs (.singleFile d dec mo) p fs).1).1 =
      (runExtract libs (.singleFile d dec mo) p fs).1)
    ∧ (∀ (libs : Libs) (prefixLen : Nat) (dirName toPath : String)
        (members : List TarMember) (fs : FS),
      ((members.filter (fun m => strStartsWith m.name dirName)).map
        (tarTargetOf toPath prefixLen)).Pairwise (fun a b => a ≠ b) →
      (runExtract libs (.tarDirectory prefixLen dirName members) toPath
        (runExtract libs (.tarDirectory prefixLen dirName members) toPath fs).1).1 =
      (runExtract libs (.tarDirectory prefixLen dirName members) toPath fs).1)
    ∧ (∀ (libs : Libs) (prefixLen : Nat) (dirName toPath : String)
        (infos : List ZipInfo) (fs : FS),
      ((infos.filter (fun i => strStartsWith i.filename dirName)).map
        (zipTargetOf toPath prefixLen)).Pairwise (fun a b => a ≠ b) →
      (runExtract libs (.zipDirectory prefixLen dirName infos) toPath
        (runExtract libs (.zipDirectory prefixLen dirName infos) toPath fs).1).1 =
      (runExtract libs (.zipDirectory prefixLen dirName infos) toPath fs).1) := by
  refine ⟨?_, ?_, ?_, ?_⟩
  · intro libs d mo nm p fs
    show (writeFileAt (writeFileAt fs p d
        (if is_exec nm mo = true then mo ||| 0o111 else mo)).1 p d
        (if is_exec nm mo = true then mo ||| 0o111 else mo)).1 = _
    exact writeFileAt_idem _ _ _ _
  · intro libs d dec mo p fs
    have heq : ∀ g : FS, runExtract libs (.singleFile d dec mo) p g =
        (match decompressData libs dec d with
         | .error e => (g, some e)
         | .ok d2 => writeFileAt g p d2 mo) := fun g => rfl
    rcases hdc : decompressData libs dec d with e | d2
    · have h1 : ∀ g : FS, runExtract libs (.singleFile d dec mo) p g = (g, some e) := by
        intro g; rw [heq g, hdc]
      rw [h1, h1]
    · have h1 : ∀ g : FS, runExtract libs (.singleFile d dec mo) p g =
          writeFileAt g p d2 mo := by
        intro g; rw [heq g, hdc]
      rw [h1, h1]
      exact writeFileAt_idem _ _ _ _
  · intro libs prefixLen dirName toPath members fs hp
    exact extractTarDirectory_idem toPath prefixLen dirName members fs hp
  · intro libs prefixLen dirName toPath infos fs hp
    exact extractZipDirectory_idem toPath prefixLen dirName infos fs hp

/-- C9 witness: duplicate-free tar and zip directory archives extract
idempotently. -/
theorem extract_idempotent_witness :
    ((runExtract libsVer (.tarDirectory 1 "d"
        [ { name := "d", mode := 0o755, kind := .dir, linkname := "", data := [] }
        , { name := "d/a", mode := 0o644, kind := .file, linkname := "", data := [1] } ])
      "out"
      (runExtract libsVer (.tarDirectory 1 "d"
        [ { name := "d", mode := 0o755, kind := .dir, linkname := "", data := [] }
        , { name := "d/a", mode := 0o644, kind := .file, linkname := "", data := [1] } ])
        "out" fsEmpty).1).1 =
    (runExtract libsVer (.tarDirectory 1 "d"
        [ { name := "d", mode := 0o755, kind := .dir, linkname := "", data := [] }
        , { name := "d/a", mode := 0o644, kind := .file, linkname := "", data := [1] } ])
      "out" fsEmpty).1)
    ∧ ((runExtract libsVer (.zipDirectory 1 "d"
        [ { filename := "d/", external_attr := 0, data := [] }
        , { filename := "d/a", external_attr := 0, data := [2] } ])
      "out"
      (runExtract libsVer (.zipDirectory 1 "d"
        [ { filename := "d/", external_attr := 0, data := [] }
        , { filename := "d/a", external_attr := 0, data := [2] } ])
        "out" fsEmpty).1).1 =
    (runExtract libsVer (.zipDirectory 1 "d"
        [ { filename := "d/", external_attr := 0, data := [] }
        , { filename := "d/a", external_attr := 0, data := [2] } ])
      "out" fsEmpty).1) :=
  ⟨extract_idempotent.2.2.1 libsVer 1 "d" "out"
    [ { name := "d", mode := 0o755, kind := .dir, linkname := "", data := [] }
    , { name := "d/a", mode := 0o644, kind := .file, linkname := "", data := [1] } ]
    fsEmpty (by decide),
   extract_idempotent.2.2.2 libsVer 1 "d" "out"
    [ { filename := "d/", external_attr := 0, data := [] }
    , { filename := "d/a", external_attr := 0, data := [2] } ]
    fsEmpty (by decide)⟩
